import Mathlib

/-!
Verification of the tender-scraper crawl-and-extract pipeline.

This file gives a shallow embedding of `tenders.py` (class `TenderScraper`)
and proves properties of the embedded definitions.  Python strings are
modelled as `List Char`; each `re` pattern used by the source is embedded as
an executable matcher that follows the backtracking semantics of Python's
`re.search` for exactly the constructs the pattern uses (greedy/lazy
quantifiers, lookahead, alternation, word boundaries, `$`, and the
IGNORECASE / DOTALL / MULTILINE flags the call site passes).  Whitespace is
the ASCII whitespace set that `\s` matches on the scraped ASCII pages, and
case folding is ASCII case folding.
-/

set_option maxRecDepth 20000

namespace TenderScraperModel

/-- Texts are Python strings, modelled as lists of characters. -/
abbrev Text := List Char

/-- Whitespace characters matched by Python's `\s` (ASCII range). -/
def pyWs (c : Char) : Bool :=
  c = ' ' || c = '\t' || c = '\n' || c = '\r' || c = '\x0b' || c = '\x0c'

/-- ASCII lower-casing of one character, the folding used for IGNORECASE. -/
def lowerC (c : Char) : Char := c.toLower

/-- Word characters for `\b` (Python `\w` over ASCII input). -/
def wordC (c : Char) : Bool := c.isAlphanum || c = '_'

/-- Case-insensitive character equality (ASCII). -/
def ciEq (a b : Char) : Bool := lowerC a = lowerC b

/-- Match a literal case-sensitively at the head, returning the rest. -/
def lit : Text → Text → Option Text
  | [], l => some l
  | _, [] => none
  | p :: ps, c :: cs => if p = c then lit ps cs else none

/-- Match a literal case-insensitively at the head, returning the rest. -/
def litCI : Text → Text → Option Text
  | [], l => some l
  | _, [] => none
  | p :: ps, c :: cs => if ciEq p c then litCI ps cs else none

/-- Check whether a literal occurs case-sensitively at the head. -/
def isPre (p l : Text) : Bool := (lit p l).isSome

/-- Check whether a literal occurs case-insensitively at the head. -/
def ciIsPre (p l : Text) : Bool := (litCI p l).isSome

/-- Check whether `needle` occurs anywhere in `hay` (Python `in`). -/
def containsSubstr (needle : Text) : Text → Bool
  | [] => isPre needle []
  | l@(_ :: tl) => isPre needle l || containsSubstr needle tl

/-- Take the part of `hay` before the first occurrence of `needle`
(Python `hay.split(needle)[0]`; the whole text when `needle` is absent). -/
def splitFirst (needle : Text) : Text → Text
  | [] => []
  | l@(c :: tl) => if isPre needle l then [] else c :: splitFirst needle tl

/-- Maximal whitespace run at the head. -/
def wsRunOf (l : Text) : Text := l.takeWhile pyWs

/-- Drop the maximal whitespace run at the head. -/
def dropWs (l : Text) : Text := l.dropWhile pyWs

/-- Python `str.strip()`: remove leading and trailing whitespace. -/
def strip (l : Text) : Text := dropWs ((dropWs l.reverse).reverse)

/-- Python `str.split()` with no separator: maximal non-whitespace runs. -/
def splitWs (l : Text) : List Text :=
  let p := l.foldr
    (fun c acc =>
      if pyWs c then (if acc.1 = ([] : Text) then acc else ([], acc.1 :: acc.2))
      else (c :: acc.1, acc.2))
    (([] : Text), ([] : List Text))
  if p.1 = [] then p.2 else p.1 :: p.2

/-- Join words with single spaces (Python `" ".join(words)`). -/
def joinWords : List Text → Text
  | [] => []
  | [w] => w
  | w :: ws => w ++ ' ' :: joinWords ws

/-- Python `str.upper()` over ASCII. -/
def upperT (l : Text) : Text := l.map Char.toUpper

/-- The method `TenderScraper.clean_value`: collapse all whitespace runs to
single spaces and trim the ends; falsy input gives the empty string. -/
def clean_value (value : Text) : Text :=
  if value = [] then [] else joinWords (splitWs (strip value))

/-- Leftmost-position search: try the position matcher at every suffix of
the text, earliest first, as `re.search` does. -/
def reSearch (m : Text → Option Text) : Text → Option Text
  | [] => m []
  | l@(_ :: tl) =>
    match m l with
    | some r => some r
    | none => reSearch m tl

/-- Leftmost-position search threading the previous character, for matchers
whose pattern starts with a word-boundary assertion. -/
def reSearchB (m : Option Char → Text → Option Text) : Option Char → Text → Option Text
  | prev, [] => m prev []
  | prev, l@(c :: tl) =>
    match m prev l with
    | some r => some r
    | none => reSearchB m (some c) tl

/-- Lazy one-or-more capture `(cls+?)` followed by a lookahead: consume
characters of the class one at a time and stop at the first position where
the lookahead holds, as a lazy quantifier does. -/
def lazyScan (cls : Char → Bool) (look : Text → Bool) : Text → Text → Option Text
  | _, [] => none
  | cap, c :: tl =>
    if cls c then
      let cap' := cap ++ [c]
      if look tl then some cap' else lazyScan cls look cap' tl
    else none

/-- Lazy zero-or-more capture `(cls*?)` followed by a lookahead. -/
def lazyScan0 (cls : Char → Bool) (look : Text → Bool) : Text → Text → Option Text
  | cap, l =>
    if look l then some cap
    else
      match l with
      | [] => none
      | c :: tl => if cls c then lazyScan0 cls look (cap ++ [c]) tl else none

/-- Backtracking of a greedy `\s*` placed before a lazy capture: first try
the capture after the maximal whitespace run, then give whitespace back one
character at a time, exactly in Python's backtracking order.  `revRun` is
the reversed whitespace run still available to give back. -/
def wsBack (scan : Text → Option Text) : Text → Text → Option Text
  | revRun, tailText =>
    match scan tailText with
    | some c => some c
    | none =>
      match revRun with
      | [] => none
      | c :: revTl => wsBack scan revTl (c :: tailText)

/-- Consume `\s*[:]\s*` after a field label, returning the whitespace run
that followed the colon together with the text after that run. -/
def colonSplit (rest : Text) : Option (Text × Text) :=
  match dropWs rest with
  | ':' :: after => some (wsRunOf after, dropWs after)
  | _ => none

/-- Matcher for label patterns `LABEL\s*[:]\s*(CLS+?)(?=LOOK)` at one
position: the label (already consumed by the caller) is followed by the
colon separator and a lazy capture with full `\s*` backtracking. -/
def capAfterColon (cls : Char → Bool) (look : Text → Bool) (rest : Text) : Option Text :=
  match colonSplit rest with
  | none => none
  | some (run, s0) => wsBack (lazyScan cls look []) run.reverse s0

/-- Matcher for label patterns `LABEL\s*[:]\s*(CLS*?)(?=LOOK)` at one
position (zero-or-more capture variant). -/
def capAfterColon0 (cls : Char → Bool) (look : Text → Bool) (rest : Text) : Option Text :=
  match colonSplit rest with
  | none => none
  | some (run, s0) => wsBack (lazyScan0 cls look []) run.reverse s0

/-- End-of-string test of `$` without MULTILINE: at the end, or just before
a single trailing newline. -/
def dollarNoML (rest : Text) : Bool := rest = [] || rest = ['\n']

/-- Lookahead test `(?=\s*(?:ALT1|ALT2|...|$))` without MULTILINE, for
alternatives that start with a non-whitespace character: the greedy `\s*`
can only reach an alternative at the end of the whitespace run, and `$`
holds somewhere in the run exactly when the rest is all whitespace. -/
def lookWsAlts (alts : List Text) (rest : Text) : Bool :=
  alts.any (fun a => ciIsPre a (dropWs rest)) || rest.all pyWs

/-- Lookahead test with a `$` under MULTILINE: additionally holds when the
whitespace run reachable by `\s*` contains a newline. -/
def lookWsAltsML (alts : List Text) (rest : Text) : Bool :=
  alts.any (fun a => ciIsPre a (dropWs rest)) || rest.all pyWs
    || (wsRunOf rest).any (fun c => c = '\n')

/-- Lowercase an entire text (Python `str.lower()` over ASCII). -/
def lowerT (l : Text) : Text := l.map lowerC

/-- Take the maximal digit run, failing when it is empty (`\d+`). -/
def digitRun (l : Text) : Option (Text × Text) :=
  let d := l.takeWhile Char.isDigit
  if d = [] then none else some (d, l.drop d.length)

/-- Take exactly `n` digits (`\d{n}` with only more pattern after them). -/
def exactDigits (n : Nat) (l : Text) : Option (Text × Text) :=
  let d := l.take n
  if d.length = n && d.all Char.isDigit then some (d, l.drop n) else none

/-- Consume `\s*`, returning the run and the rest. -/
def wsPart (l : Text) : Text × Text := (wsRunOf l, dropWs l)

/-- Match `[A-Za-z]{lo,hi}` directly followed by a non-alphabetic pattern
part: only the full alphabetic run can match, so the run length must lie in
the bounds (`hi? = none` for an unbounded `+`). -/
def alphaRunPart (lo : Nat) (hi? : Option Nat) (l : Text) : Option (Text × Text) :=
  let r := l.takeWhile Char.isAlpha
  if lo ≤ r.length && (match hi? with | some h => decide (r.length ≤ h) | none => true) then
    some (r, l.drop r.length)
  else none

/-- Match `[A-Za-z]{lo,hi}day,`: the alphabetic run must end in `day` (the
comma pins the repetition to three characters less than the run). -/
def weekdayPart (lo : Nat) (hi? : Option Nat) (l : Text) : Option (Text × Text) :=
  let r := l.takeWhile Char.isAlpha
  let rest := l.drop r.length
  if lo + 3 ≤ r.length
      && (match hi? with | some h => decide (r.length ≤ h + 3) | none => true)
      && ciIsPre "day".toList (r.drop (r.length - 3))
      && isPre [','] rest then
    some (r ++ [','], rest.drop 1)
  else none

/-- Match `\d{1,2}` directly followed by `\s*[A-Za-z]` or `:`-like material:
a run of three or more digits can never match, so the run length must be one
or two. -/
def dayNumPart (l : Text) : Option (Text × Text) :=
  let r := l.takeWhile Char.isDigit
  if r.length = 1 || r.length = 2 then some (r, l.drop r.length) else none

/-- Optional time `(?:\s+\d{1,2}:\d{2}(?:\s*[AP]M)?)?` as used by the
generic date extractor; consumes nothing when it cannot match. -/
def timeOptD (l : Text) : Text × Text :=
  let ws := wsRunOf l
  if ws = [] then ([], l)
  else
    let l1 := dropWs l
    match dayNumPart l1 with
    | none => ([], l)
    | some (hh, l2) =>
      match l2 with
      | ':' :: l3 =>
        match exactDigits 2 l3 with
        | none => ([], l)
        | some (mm, l4) =>
          let ws2 := wsRunOf l4
          match dropWs l4 with
          | a :: m :: l5 =>
            if (ciEq a 'a' || ciEq a 'p') && ciEq m 'm' then
              (ws ++ hh ++ ':' :: mm ++ ws2 ++ [a, m], l5)
            else (ws ++ hh ++ ':' :: mm, l4)
          | _ => (ws ++ hh ++ ':' :: mm, l4)
      | _ => ([], l)

/-- Optional time `(?:\s*-?\s*\d{1,2}:\d{2}(?:[AP]M)?)?` as used by the
briefing-date patterns; consumes nothing when it cannot match. -/
def timeOptB (l : Text) : Text × Text :=
  let ws1 := wsRunOf l
  let l1 := dropWs l
  let (dash, l2) := match l1 with
    | '-' :: t => ((['-'] : Text), t)
    | _ => (([] : Text), l1)
  let ws2 := wsRunOf l2
  let l3 := dropWs l2
  match dayNumPart l3 with
  | none => ([], l)
  | some (hh, l4) =>
    match l4 with
    | ':' :: l5 =>
      match exactDigits 2 l5 with
      | none => ([], l)
      | some (mm, l6) =>
        match l6 with
        | a :: m :: l7 =>
          if (ciEq a 'a' || ciEq a 'p') && ciEq m 'm' then
            (ws1 ++ dash ++ ws2 ++ hh ++ ':' :: mm ++ [a, m], l7)
          else (ws1 ++ dash ++ ws2 ++ hh ++ ':' :: mm, l6)
        | _ => (ws1 ++ dash ++ ws2 ++ hh ++ ':' :: mm, l6)
    | _ => ([], l)

/-- Position matcher for the first `extract_date` pattern: weekday name,
full date and optional time after `PREFIX\s*[:]\s*`. -/
def mDate1 (dname : Text) (l : Text) : Option Text := do
  let r1 ← litCI dname l
  let (_, s0) ← colonSplit r1
  let (wd, a1) ← weekdayPart 3 (some 9) s0
  let (w1, a2) := wsPart a1
  let (dd, a3) ← dayNumPart a2
  let (w2, a4) := wsPart a3
  let (mon, a5) ← alphaRunPart 3 (some 9) a4
  let (w3, a6) := wsPart a5
  let (yy, a7) ← exactDigits 4 a6
  let (tm, _) := timeOptD a7
  pure (wd ++ w1 ++ dd ++ w2 ++ mon ++ w3 ++ yy ++ tm)

/-- Position matcher for the second `extract_date` pattern: date without
weekday name and optional time. -/
def mDate2 (dname : Text) (l : Text) : Option Text := do
  let r1 ← litCI dname l
  let (_, s0) ← colonSplit r1
  let (dd, a1) ← dayNumPart s0
  let (w1, a2) := wsPart a1
  let (mon, a3) ← alphaRunPart 3 (some 9) a2
  let (w2, a4) := wsPart a3
  let (yy, a5) ← exactDigits 4 a4
  let (tm, _) := timeOptD a5
  pure (dd ++ w1 ++ mon ++ w2 ++ yy ++ tm)

/-- Lookahead `(?=\n|$)`: an empty rest, or a newline next. -/
def lookNl (rest : Text) : Bool :=
  match rest with
  | [] => true
  | c :: _ => c = '\n'

/-- Position matcher for the third `extract_date` pattern: the value up to
the next newline. -/
def mDate3 (dname : Text) (l : Text) : Option Text := do
  let r1 ← litCI dname l
  capAfterColon (fun c => c ≠ '\n') lookNl r1

/-- Lookahead `(?=\s{2,}|\n|$)` of the fourth `extract_date` pattern. -/
def look4 (rest : Text) : Bool :=
  match rest with
  | [] => true
  | [c] => c = '\n'
  | c1 :: c2 :: _ => (pyWs c1 && pyWs c2) || c1 = '\n'

/-- Position matcher for the fourth `extract_date` pattern: anything (the
call site passes DOTALL) up to a double space or newline. -/
def mDate4 (dname : Text) (l : Text) : Option Text := do
  let r1 ← litCI dname l
  capAfterColon (fun _ => true) look4 r1

/-- Lookahead `(?=\s*\n|\s*$)` under MULTILINE: holds when the reachable
whitespace run contains a newline or only whitespace remains. -/
def lookSimpleML (rest : Text) : Bool :=
  (wsRunOf rest).any (fun c => c = '\n') || rest.all pyWs

/-- Position matcher for the final lenient pattern of `extract_date`
(`(\S.*?)(?=\s*\n|\s*$)`, case-sensitive, MULTILINE). -/
def mDateSimple (dname : Text) (l : Text) : Option Text := do
  let r1 ← lit dname l
  let (_, s0) ← colonSplit r1
  match s0 with
  | [] => none
  | c :: tl =>
    if lookSimpleML tl then some [c]
    else lazyScan (fun x => x ≠ '\n') lookSimpleML [c] tl

/-- The fixed stop-word list of `extract_date`. -/
def date_stop_words : List Text :=
  ["Enquiries".toList, "Email".toList, "Tel".toList, "Briefing".toList,
   "Department".toList, "Bid Description".toList, "Opening Date".toList,
   "Closing Date".toList, "Modified Date".toList]

/-- Stop-word guard of `extract_date`: walk the stop-word list in order and
truncate the candidate at the first listed label that occurs in it and is
not the field being extracted. -/
def stopGuard (dname : Text) : List Text → Text → Text
  | [], d => d
  | w :: tl, d =>
    if containsSubstr w d ∧ w ≠ dname then strip (splitFirst w d)
    else stopGuard dname tl d

/-- One iteration of the `extract_date` pattern loop: search, normalise the
candidate, apply the stop-word guard, and reject single-character (or
shorter) results. -/
def dateAttempt (dname : Text) (m : Text → Option Text) (t : Text) : Option Text :=
  match reSearch m t with
  | none => none
  | some g =>
    let d := joinWords (splitWs (strip g))
    let d2 := stopGuard dname date_stop_words d
    if 1 < d2.length then some d2 else none

/-- The four patterns of `extract_date`, most specific first. -/
def datePatterns (dname : Text) : List (Text → Option Text) :=
  [mDate1 dname, mDate2 dname, mDate3 dname, mDate4 dname]

/-- The pattern loop of `extract_date`. -/
def dateLoop (dname : Text) (t : Text) : List (Text → Option Text) → Option Text
  | [] => none
  | m :: ms =>
    match dateAttempt dname m t with
    | some v => some v
    | none => dateLoop dname t ms

/-- The method `TenderScraper.extract_date`: four-pattern fallback chain
with stop-word guard and single-character rejection, then one final lenient
single-line match, then the empty string. -/
def extract_date (t : Text) (dname : Text) : Text :=
  match dateLoop dname t (datePatterns dname) with
  | some v => v
  | none =>
    match reSearch (mDateSimple dname) t with
    | some g => strip g
    | none => []

/-- Position matcher of the `extract_department_only` pattern
`Department\s*[:]\s*([^\n]+?)(?=\s*(?:Bid Description|$))`. -/
def mDepartment (l : Text) : Option Text := do
  let r1 ← litCI "Department".toList l
  capAfterColon (fun c => c ≠ '\n') (lookWsAlts ["Bid Description".toList]) r1

/-- The method `TenderScraper.extract_department_only`. -/
def extract_department_only (text : Text) : Text :=
  match reSearch mDepartment text with
  | some g => clean_value (strip g)
  | none => []

/-- Match `/` followed by a digit run. -/
def slashDigit (l : Text) : Option (Text × Text) :=
  match l with
  | '/' :: r => (digitRun r).map (fun p => ('/' :: p.1, p.2))
  | _ => none

/-- Match `[A-Z]{2,}` under IGNORECASE directly followed by a non-letter:
the full alphabetic run, of length at least two. -/
def alphaRun2 (l : Text) : Option (Text × Text) :=
  let a := l.takeWhile Char.isAlpha
  if a.length < 2 then none else some (a, l.drop a.length)

/-- Word-boundary `\b` before a word character, given the previous
character. -/
def atB (prev : Option Char) : Bool :=
  match prev with
  | none => true
  | some p => !wordC p

/-- Word-boundary `\b` after a word character, given the rest. -/
def endB (rest : Text) : Bool :=
  match rest with
  | [] => true
  | c :: _ => !wordC c

/-- Bid-number pattern 1: `RFQ NUMBER\s*(\d+/\d+)`. -/
def mBid1 (l : Text) : Option Text := do
  let r1 ← litCI "RFQ NUMBER".toList l
  let a1 := dropWs r1
  let (d1, a2) ← digitRun a1
  let (s1, _) ← slashDigit a2
  pure (d1 ++ s1)

/-- Bid-number pattern 2:
`Request for Quotation\s*[:]\s*RFQ NUMBER\s*(\d+/\d+)`. -/
def mBid2 (l : Text) : Option Text := do
  let r1 ← litCI "Request for Quotation".toList l
  let (_, s0) ← colonSplit r1
  let r2 ← litCI "RFQ NUMBER".toList s0
  let a1 := dropWs r2
  let (d1, a2) ← digitRun a1
  let (s1, _) ← slashDigit a2
  pure (d1 ++ s1)

/-- Bid-number pattern 3: `Bid Number\s*[:]\s*([A-Z]{2,}/\d+/\d+/\d+)`. -/
def mBid3 (l : Text) : Option Text := do
  let r1 ← litCI "Bid Number".toList l
  let (_, s0) ← colonSplit r1
  let (a, r2) ← alphaRun2 s0
  let (s1, r3) ← slashDigit r2
  let (s2, r4) ← slashDigit r3
  let (s3, _) ← slashDigit r4
  pure (a ++ s1 ++ s2 ++ s3)

/-- Bid-number pattern 4: `\b([A-Z]{2,}/\d+/\d+/\d+)\b`. -/
def mBid4 (prev : Option Char) (l : Text) : Option Text := do
  if atB prev then
    let (a, r2) ← alphaRun2 l
    let (s1, r3) ← slashDigit r2
    let (s2, r4) ← slashDigit r3
    let (s3, r5) ← slashDigit r4
    if endB r5 then pure (a ++ s1 ++ s2 ++ s3) else none
  else none

/-- Bid-number pattern 5: `\b([A-Z]{2,}/\d+/\d+)\b`. -/
def mBid5 (prev : Option Char) (l : Text) : Option Text := do
  if atB prev then
    let (a, r2) ← alphaRun2 l
    let (s1, r3) ← slashDigit r2
    let (s2, r4) ← slashDigit r3
    if endB r4 then pure (a ++ s1 ++ s2) else none
  else none

/-- Bid-number pattern 6: `\b([A-Z]{2,}\d+/\d+)\b`. -/
def mBid6 (prev : Option Char) (l : Text) : Option Text := do
  if atB prev then
    let (a, r2) ← alphaRun2 l
    let (d1, r3) ← digitRun r2
    let (s1, r4) ← slashDigit r3
    if endB r4 then pure (a ++ d1 ++ s1) else none
  else none

/-- Bid-number pattern 7: `\b(\d+/\d+)\b`. -/
def mBid7 (prev : Option Char) (l : Text) : Option Text := do
  if atB prev then
    let (d1, r2) ← digitRun l
    let (s1, r3) ← slashDigit r2
    if endB r3 then pure (d1 ++ s1) else none
  else none

/-- The seven bid-number patterns, most specific first. -/
def bidMatchers : List (Option Char → Text → Option Text) :=
  [fun _ => mBid1, fun _ => mBid2, fun _ => mBid3, mBid4, mBid5, mBid6, mBid7]

/-- The pattern loop of `extract_bid_number_only`: the first pattern whose
search succeeds wins. -/
def bidLoop (t : Text) : List (Option Char → Text → Option Text) → Option Text
  | [] => none
  | m :: ms =>
    match reSearchB m none t with
    | some g => some g
    | none => bidLoop t ms

/-- The method `TenderScraper.extract_bid_number_only`. -/
def extract_bid_number_only (text : Text) : Text :=
  (bidLoop text bidMatchers).getD []

/-- Label alternation `(?:Enquiries|Contact Person)` at one position. -/
def contactLabel (l : Text) : Option Text :=
  match litCI "Enquiries".toList l with
  | some r => some r
  | none => litCI "Contact Person".toList l

/-- Position matcher of the first `extract_contact_person` pattern
`(?:Enquiries|Contact Person)\s*[:]\s*([^0-9,]+?)(?=\s*(?:Tel|Email|$))`. -/
def mContact1 (l : Text) : Option Text := do
  let r1 ← contactLabel l
  capAfterColon (fun c => !(c.isDigit || c = ','))
    (lookWsAlts ["Tel".toList, "Email".toList]) r1

/-- Position matcher of the second `extract_contact_person` pattern
`(?:Enquiries|Contact Person)\s*[:]\s*([^,]+?)(?=\s*(?:@|Tel|Email|$))`. -/
def mContact2 (l : Text) : Option Text := do
  let r1 ← contactLabel l
  capAfterColon (fun c => c ≠ ',')
    (lookWsAlts ["@".toList, "Tel".toList, "Email".toList]) r1

/-- Python `re.sub(r'@.*', '', name)` without DOTALL: in every line, remove
the first `@` and everything after it up to the end of that line. -/
def atCutGo : Bool → Text → Text
  | _, [] => []
  | false, c :: tl => if c = '@' then atCutGo true tl else c :: atCutGo false tl
  | true, c :: tl => if c = '\n' then c :: atCutGo false tl else atCutGo true tl

/-- Post-processing of a contact-person capture: strip, remove digits and
phone punctuation, cut email remnants, collapse whitespace. -/
def contactClean (g : Text) : Text :=
  let name := strip g
  let name := name.filter (fun c => !(c.isDigit || c = '(' || c = ')' || c = '-' || c = '+'))
  let name := atCutGo false name
  clean_value name

/-- The method `TenderScraper.extract_contact_person`. -/
def extract_contact_person (text : Text) : Text :=
  match reSearch mContact1 text with
  | some g => contactClean g
  | none =>
    match reSearch mContact2 text with
    | some g => contactClean g
    | none => []

/-- Character class `[A-Za-z0-9._%+-]` of the e-mail local part. -/
def localCls (c : Char) : Bool :=
  c.isAlphanum || c = '.' || c = '_' || c = '%' || c = '+' || c = '-'

/-- Character class `[A-Za-z0-9.-]` of the e-mail domain part. -/
def domCls (c : Char) : Bool := c.isAlphanum || c = '.' || c = '-'

/-- Character class `[A-Z|a-z]` of the e-mail top-level part: letters and a
literal bar. -/
def tailCls (c : Char) : Bool := c.isAlpha || c = '|'

/-- Match `[A-Za-z0-9.-]+\.[A-Z|a-z]{2,}` at the head with the greedy
backtracking of the first run: split the maximal domain run at the
rightmost dot that leaves a top-level run of length at least two. -/
def emailTailGo (l d : Text) : Nat → Option Text
  | 0 => none
  | j + 1 =>
    let jj := j + 1
    if jj < d.length && d.getD jj ' ' = '.' then
      let t := (l.drop (jj + 1)).takeWhile tailCls
      if 2 ≤ t.length then some (d.take jj ++ '.' :: t) else emailTailGo l d j
    else emailTailGo l d j

/-- Entry point of the domain-and-top-level matcher used by the labelled
e-mail pattern. -/
def emailTail (l : Text) : Option Text :=
  let d := l.takeWhile domCls
  if d = [] then none else emailTailGo l d (d.length - 1)

/-- Position matcher of the labelled e-mail pattern
`Email\s*[:]\s*([A-Za-z0-9._%+-]+@[A-Za-z0-9.-]+\.[A-Z|a-z]{2,})`. -/
def mEmail1 (l : Text) : Option Text := do
  let r1 ← litCI "Email".toList l
  let (_, s0) ← colonSplit r1
  let loc := s0.takeWhile localCls
  if loc = [] then none
  else
    match s0.drop loc.length with
    | '@' :: r2 => (emailTail r2).map (fun t => loc ++ '@' :: t)
    | _ => none

/-- Trailing `\b` after `[A-Z|a-z]{2,}`: shorten the maximal top-level run
until a word boundary follows, greedy first. -/
def tailBGo (r t : Text) : Nat → Option Text
  | 0 => none
  | k + 1 =>
    let kk := k + 1
    if 2 ≤ kk && kk ≤ t.length then
      let lastW := wordC (t.getD (kk - 1) ' ')
      let nextW := match r.get? kk with
        | some c => wordC c
        | none => false
      if lastW ≠ nextW then some (t.take kk) else tailBGo r t k
    else tailBGo r t k

/-- Domain-and-top-level matcher of the bare e-mail pattern, with the
trailing word boundary. -/
def emailTailBGo (l d : Text) : Nat → Option Text
  | 0 => none
  | j + 1 =>
    let jj := j + 1
    if jj < d.length && d.getD jj ' ' = '.' then
      let r := l.drop (jj + 1)
      let t := r.takeWhile tailCls
      match tailBGo r t t.length with
      | some tt => some (d.take jj ++ '.' :: tt)
      | none => emailTailBGo l d j
    else emailTailBGo l d j

/-- Entry point of the domain matcher of the bare e-mail pattern. -/
def emailTailB (l : Text) : Option Text :=
  let d := l.takeWhile domCls
  if d = [] then none else emailTailBGo l d (d.length - 1)

/-- Position matcher of the bare e-mail pattern
`\b[A-Za-z0-9._%+-]+@[A-Za-z0-9.-]+\.[A-Z|a-z]{2,}\b` (group 0 is
returned by the source). -/
def mEmail2 (prev : Option Char) (l : Text) : Option Text :=
  match l with
  | [] => none
  | c :: _ =>
    if !localCls c then none
    else
      let prevW := match prev with
        | none => false
        | some p => wordC p
      if wordC c = prevW then none
      else
        let loc := l.takeWhile localCls
        match l.drop loc.length with
        | '@' :: r2 => (emailTailB r2).map (fun t => loc ++ '@' :: t)
        | _ => none

/-- The method `TenderScraper.extract_email_only`: labelled address first,
then any bare address, lower-cased. -/
def extract_email_only (text : Text) : Text :=
  match reSearch mEmail1 text with
  | some g => lowerT g
  | none =>
    match reSearchB mEmail2 none text with
    | some g => lowerT g
    | none => []

/-- Label alternation `(?:Tel|Phone)` at one position. -/
def phoneLabel (l : Text) : Option Text :=
  match litCI "Tel".toList l with
  | some r => some r
  | none => litCI "Phone".toList l

/-- Match `[\s\-]?\d{n}` with the backtracking of the greedy optional
separator. -/
def sepDigits (n : Nat) (l : Text) : Option (Text × Text) :=
  match l with
  | c :: tl =>
    if pyWs c || c = '-' then
      match exactDigits n tl with
      | some (d, r) => some (c :: d, r)
      | none => exactDigits n l
    else exactDigits n l
  | [] => none

/-- Position matcher of the first phone pattern
`(?:Tel|Phone)\s*[:]\s*((?:\+27|0)[\s\-]?\d{2}[\s\-]?\d{3}[\s\-]?\d{4})`. -/
def mPhone1 (l : Text) : Option Text := do
  let r1 ← phoneLabel l
  let (_, s0) ← colonSplit r1
  let (pfx, r0) ← (match s0 with
    | '+' :: '2' :: '7' :: r => some ((['+', '2', '7'] : Text), r)
    | '0' :: r => some ((['0'] : Text), r)
    | _ => none)
  let (g1, r2) ← sepDigits 2 r0
  let (g2, r3) ← sepDigits 3 r2
  let (g3, _) ← sepDigits 4 r3
  pure (pfx ++ g1 ++ g2 ++ g3)

/-- Position matcher of the second phone pattern
`(?:Tel|Phone)\s*[:]\s*(\d{3}[\s\-]?\d{3}[\s\-]?\d{4})`. -/
def mPhone2 (l : Text) : Option Text := do
  let r1 ← phoneLabel l
  let (_, s0) ← colonSplit r1
  let (g1, r2) ← exactDigits 3 s0
  let (g2, r3) ← sepDigits 3 r2
  let (g3, _) ← sepDigits 4 r3
  pure (g1 ++ g2 ++ g3)

/-- Position matcher of the third phone pattern
`(?:Tel|Phone)\s*[:]\s*(\d{10,})`. -/
def mPhone3 (l : Text) : Option Text := do
  let r1 ← phoneLabel l
  let (_, s0) ← colonSplit r1
  let d := s0.takeWhile Char.isDigit
  if 10 ≤ d.length then some d else none

/-- The method `TenderScraper.extract_phone_only`: three-pattern chain, the
match stripped of whitespace and hyphens. -/
def extract_phone_only (text : Text) : Text :=
  let norm := fun (g : Text) => (strip g).filter (fun c => !(pyWs c || c = '-'))
  match reSearch mPhone1 text with
  | some g => norm g
  | none =>
    match reSearch mPhone2 text with
    | some g => norm g
    | none =>
      match reSearch mPhone3 text with
      | some g => norm g
      | none => []

/-- Take the part of a text before the first position where `\s*` followed
by one of the (case-sensitive) needles matches, as `re.split(...)[0]` does
for needles that start with a non-whitespace character. -/
def cutBeforeWsLit (needles : List Text) : Text → Text
  | [] => []
  | c :: tl =>
    if needles.any (fun n => isPre n (dropWs (c :: tl))) then []
    else c :: cutBeforeWsLit needles tl

/-- Position matcher of the `extract_description_only` pattern
`Bid Description\s*[:]\s*(.*?)(?=\s*(?:Place where|Opening Date|Closing Date|$))`. -/
def mDescription (l : Text) : Option Text := do
  let r1 ← litCI "Bid Description".toList l
  capAfterColon0 (fun _ => true)
    (lookWsAlts ["Place where".toList, "Opening Date".toList, "Closing Date".toList]) r1

/-- The method `TenderScraper.extract_description_only`. -/
def extract_description_only (text : Text) : Text :=
  match reSearch mDescription text with
  | some g =>
    let desc := strip g
    let desc := cutBeforeWsLit ["Place where".toList] desc
    clean_value desc
  | none => []

/-- Position matcher of the `extract_location_only` pattern, whose label is
`Place where goods, works or services are required`. -/
def mLocation (l : Text) : Option Text := do
  let r1 ← litCI "Place where goods, works or services are required".toList l
  capAfterColon0 (fun _ => true)
    (lookWsAlts ["Opening Date".toList, "Closing Date".toList]) r1

/-- The method `TenderScraper.extract_location_only`. -/
def extract_location_only (text : Text) : Text :=
  match reSearch mLocation text with
  | some g =>
    let location := strip g
    let location := cutBeforeWsLit ["Opening Date".toList, "Closing Date".toList] location
    clean_value location
  | none => []

/-- Position matcher of the in-parser venue pattern
`Venue\s*[:]\s*([^:\n]+?)(?=\s*(?:Special Conditions|$))`. -/
def mVenueInline (l : Text) : Option Text := do
  let r1 ← litCI "Venue".toList l
  capAfterColon (fun c => !(c = ':' || c = '\n'))
    (lookWsAlts ["Special Conditions".toList]) r1

/-- Position matcher of `LABEL\s*[:]\s*(Yes|No)` under IGNORECASE; the
returned group is the matched text as written. -/
def mYesNo (label : Text) (l : Text) : Option Text := do
  let r1 ← litCI label l
  let (_, s0) ← colonSplit r1
  match litCI "Yes".toList s0 with
  | some _ => some (s0.take 3)
  | none =>
    match litCI "No".toList s0 with
    | some _ => some (s0.take 2)
    | none => none

/-- Position matcher of the first briefing-date pattern: weekday name, full
date and optional time after the bare label `Date`. -/
def mBriefing1 (l : Text) : Option Text := do
  let r1 ← litCI "Date".toList l
  let (_, s0) ← colonSplit r1
  let (wd, a1) ← weekdayPart 1 none s0
  let (w1, a2) := wsPart a1
  let (dd, a3) ← dayNumPart a2
  let (w2, a4) := wsPart a3
  let (mon, a5) ← alphaRunPart 1 none a4
  let (w3, a6) := wsPart a5
  let (yy, a7) ← exactDigits 4 a6
  let (tm, _) := timeOptB a7
  pure (wd ++ w1 ++ dd ++ w2 ++ mon ++ w3 ++ yy ++ tm)

/-- Position matcher of the second briefing-date pattern: date without
weekday name. -/
def mBriefing2 (l : Text) : Option Text := do
  let r1 ← litCI "Date".toList l
  let (_, s0) ← colonSplit r1
  let (dd, a1) ← dayNumPart s0
  let (w1, a2) := wsPart a1
  let (mon, a3) ← alphaRunPart 1 none a2
  let (w2, a4) := wsPart a3
  let (yy, a5) ← exactDigits 4 a4
  let (tm, _) := timeOptB a5
  pure (dd ++ w1 ++ mon ++ w2 ++ yy ++ tm)

/-- Position matcher of the third briefing-date pattern
`Date\s*[:]\s*([^\n]+?)(?=\s*(?:Venue|$))` under MULTILINE. -/
def mBriefing3 (l : Text) : Option Text := do
  let r1 ← litCI "Date".toList l
  capAfterColon (fun c => c ≠ '\n') (lookWsAltsML ["Venue".toList]) r1

/-- The briefing-date pattern loop of `parse_detailed_text`: first pattern
whose search succeeds wins. -/
def briefingDateChain (text : Text) : Option Text :=
  match reSearch mBriefing1 text with
  | some g => some g
  | none =>
    match reSearch mBriefing2 text with
    | some g => some g
    | none => reSearch mBriefing3 text

/-- Lazy capture `(.*?)$` with DOTALL and without MULTILINE: everything up
to the end, or up to a single trailing newline. -/
def condCap (s0 : Text) : Text :=
  match s0.reverse with
  | '\n' :: revTl => revTl.reverse
  | _ => s0

/-- Position matcher of the special-conditions pattern
`Special Conditions\s*[:]\s*(.*?)$` (case-sensitive, DOTALL). -/
def mConditions (l : Text) : Option Text := do
  let r1 ← lit "Special Conditions".toList l
  let (_, s0) ← colonSplit r1
  pure (condCap s0)

/-- Truncation applied to the cleaned special-conditions value. -/
def truncate500 (conditions : Text) : Text :=
  if 500 < conditions.length then conditions.take 497 ++ "...".toList else conditions

/-- Position matcher of the per-paragraph fallback pattern
`LABEL:\s*(.+)` (no flags), used on individual paragraph texts. -/
def mPTagBack : Text → Text → Option Text
  | [], _ => none
  | c :: revTl, acc =>
    if c ≠ '\n' then some (c :: acc.takeWhile (fun x => x ≠ '\n'))
    else mPTagBack revTl (c :: acc)

/-- Position matcher for `LABEL:\s*(.+)`: greedy rest-of-line capture with
`\s*` backtracking when only whitespace remains. -/
def mPTag (label : Text) (l : Text) : Option Text := do
  let r1 ← lit (label ++ [':']) l
  let run := wsRunOf r1
  let s0 := dropWs r1
  match s0 with
  | _ :: _ => some (s0.takeWhile (fun c => c ≠ '\n'))
  | [] => mPTagBack run.reverse []

/-- The field map built by `parse_detailed_text` and
`scrape_tender_details`: one optional entry per dictionary key the source
can set (`none` models an absent key, `some v` a key set to `v`). -/
structure DetailFields where
  tenderType : Option Text := none
  bidNumber : Option Text := none
  department : Option Text := none
  bidDescription : Option Text := none
  location : Option Text := none
  openingDate : Option Text := none
  closingDate : Option Text := none
  modifiedDate : Option Text := none
  datePublished : Option Text := none
  contactPerson : Option Text := none
  email : Option Text := none
  tel : Option Text := none
  briefingSession : Option Text := none
  compulsoryBriefing : Option Text := none
  briefingDate : Option Text := none
  venue : Option Text := none
  specialConditions : Option Text := none
  title : Option Text := none
  description : Option Text := none
  deriving DecidableEq, Repr

/-- The ordered tender-type list tested by literal containment. -/
def tender_types : List Text :=
  ["Request for Quotation".toList, "Request for Bid(Open-Tender)".toList,
   "Request for Bid(Limited-Tender)".toList, "Request for Proposal".toList]

/-- Value stored for `Briefing Session` or `Compulsory Briefing`: the
matched `Yes`/`No` upper-cased, or the empty string when no match. -/
def briefVal (label : Text) (text : Text) : Text :=
  match reSearch (mYesNo label) text with
  | some g => upperT g
  | none => []

/-- The first stage of `parse_detailed_text`: tender type by literal
containment, then the independent field extractors, then the two briefing
flags. -/
def parseBase (text : Text) : DetailFields :=
  let f0 : DetailFields := {}
  let f1 := match tender_types.find? (fun ty => containsSubstr ty text) with
    | some ty => { f0 with tenderType := some ty }
    | none => f0
  { f1 with
    bidNumber := some (extract_bid_number_only text)
    department := some (extract_department_only text)
    bidDescription := some (extract_description_only text)
    location := some (extract_location_only text)
    openingDate := some (extract_date text "Opening Date".toList)
    closingDate := some (extract_date text "Closing Date".toList)
    modifiedDate := some (extract_date text "Modified Date".toList)
    datePublished := some (extract_date text "Date Published".toList)
    contactPerson := some (extract_contact_person text)
    email := some (extract_email_only text)
    tel := some (extract_phone_only text)
    briefingSession := some (briefVal "Briefing Session".toList text)
    compulsoryBriefing := some (briefVal "Compulsory Briefing".toList text) }

/-- The conditional briefing stage of `parse_detailed_text`: extract
`Briefing Date` and `Venue` only when a flag is YES, otherwise force both
empty. -/
def parseBriefing (text : Text) (f3 : DetailFields) : DetailFields :=
  let bs := briefVal "Briefing Session".toList text
  let cb := briefVal "Compulsory Briefing".toList text
  if upperT bs = "YES".toList || upperT cb = "YES".toList then
    let f4a := match briefingDateChain text with
      | some g => { f3 with briefingDate := some (clean_value g) }
      | none => f3
    match reSearch mVenueInline text with
    | some g => { f4a with venue := some (clean_value g) }
    | none => f4a
  else { f3 with briefingDate := some [], venue := some [] }

/-- The special-conditions stage of `parse_detailed_text`. -/
def parseConditions (text : Text) (f4 : DetailFields) : DetailFields :=
  match reSearch mConditions text with
  | some g => { f4 with specialConditions := some (truncate500 (clean_value (strip g))) }
  | none => f4

/-- The method `TenderScraper.parse_detailed_text`: run the extractors over
the blob and assemble the field map, with the conditional briefing logic
and the special-conditions truncation. -/
def parse_detailed_text (text : Text) : DetailFields :=
  parseConditions text (parseBriefing text (parseBase text))

/-- Result of fetching one detail page, as `scrape_tender_details` observes
it: a raised transport error, a missing `section.bg-light`, a missing
active tab, or the located page with its optional `h3` title, the
newline-separated text blob of the active tab, and the texts of its `p`
elements. -/
inductive DetailFetch
  | fetchError
  | noSection
  | noTab
  | page (titleElem : Option Text) (blob : Text) (pTags : List Text)
  deriving DecidableEq, Repr

/-- Result of fetching one listing page, as `scrape_tenders` observes it: a
raised transport error, a missing `section.bg-light`, or the list of tender
cards found (possibly empty). -/
structure Anchor where
  text : Text
  href : Option Text
  deriving DecidableEq, Repr

/-- One listing card: its optional NEW-badge text and its first anchor. -/
structure Card where
  badge : Option Text
  link : Option Anchor
  deriving DecidableEq, Repr

/-- Listing-page fetch outcome. -/
inductive ListingFetch
  | fetchError
  | noSection
  | cards (cs : List Card)
  deriving DecidableEq, Repr

/-- The external web site, modelled as the responses the scraper observes:
one listing outcome per page number and one detail outcome per URL. -/
structure Site where
  listing : Nat → ListingFetch
  detail : Text → DetailFetch

/-- The dictionary literal that opens `scrape_tender_details`: every
required field present and set to the empty string (no `Title` key). -/
def emptyDetails : DetailFields :=
  { tenderType := some [], bidNumber := some [], department := some [],
    bidDescription := some [], location := some [], openingDate := some [],
    closingDate := some [], modifiedDate := some [], datePublished := some [],
    contactPerson := some [], email := some [], tel := some [],
    briefingSession := some [], compulsoryBriefing := some [],
    briefingDate := some [], venue := some [], specialConditions := some [],
    description := some [] }

/-- Python `dict.update` on one optional entry: the new value wins when its
key is present. -/
def updOpt (old new : Option Text) : Option Text :=
  match new with
  | some v => some v
  | none => old

/-- Python `dict.update` over the whole field map. -/
def DetailFields.update (d e : DetailFields) : DetailFields :=
  { tenderType := updOpt d.tenderType e.tenderType
    bidNumber := updOpt d.bidNumber e.bidNumber
    department := updOpt d.department e.department
    bidDescription := updOpt d.bidDescription e.bidDescription
    location := updOpt d.location e.location
    openingDate := updOpt d.openingDate e.openingDate
    closingDate := updOpt d.closingDate e.closingDate
    modifiedDate := updOpt d.modifiedDate e.modifiedDate
    datePublished := updOpt d.datePublished e.datePublished
    contactPerson := updOpt d.contactPerson e.contactPerson
    email := updOpt d.email e.email
    tel := updOpt d.tel e.tel
    briefingSession := updOpt d.briefingSession e.briefingSession
    compulsoryBriefing := updOpt d.compulsoryBriefing e.compulsoryBriefing
    briefingDate := updOpt d.briefingDate e.briefingDate
    venue := updOpt d.venue e.venue
    specialConditions := updOpt d.specialConditions e.specialConditions
    title := updOpt d.title e.title
    description := updOpt d.description e.description }

/-- One step of the per-paragraph date fallback of
`scrape_tender_details`. -/
def pTagStep (d : DetailFields) (p : Text) : DetailFields :=
  if containsSubstr "Opening Date:".toList p then
    match reSearch (mPTag "Opening Date".toList) p with
    | some g => { d with openingDate := some (strip g) }
    | none => d
  else if containsSubstr "Closing Date:".toList p then
    match reSearch (mPTag "Closing Date".toList) p with
    | some g => { d with closingDate := some (strip g) }
    | none => d
  else if containsSubstr "Modified Date:".toList p then
    match reSearch (mPTag "Modified Date".toList) p with
    | some g => { d with modifiedDate := some (strip g) }
    | none => d
  else d

/-- The defaults dictionary of `scrape_tender_details` with the `Title`
key added when the `h3` element is present. -/
def detailInit (titleElem : Option Text) : DetailFields :=
  match titleElem with
  | some t => { emptyDetails with title := some (clean_value t) }
  | none => emptyDetails

/-- The per-paragraph date fallback of `scrape_tender_details`, run only
when the parsed `Opening Date` is empty or at most two characters. -/
def detailPTagFallback (d1 : DetailFields) (pTags : List Text) : DetailFields :=
  let op := d1.openingDate.getD []
  if op = [] || op.length ≤ 2 then pTags.foldl pTagStep d1 else d1

/-- The description fallback of `scrape_tender_details`: copy
`Bid Description` into `Description` when the latter is blank and the
former non-empty. -/
def detailDescFallback (d2 : DetailFields) : DetailFields :=
  let desc := d2.description.getD []
  let bidd := d2.bidDescription.getD []
  if strip desc = [] && bidd ≠ [] then { d2 with description := some bidd } else d2

/-- The method `TenderScraper.scrape_tender_details`: defaults for every
field, early return on fetch or structure failure, parse of the blob, the
per-paragraph date fallback, and the description fallback. -/
def scrape_tender_details (site : Site) (tender_url : Text) : DetailFields :=
  match site.detail tender_url with
  | .fetchError => emptyDetails
  | .noSection => emptyDetails
  | .noTab => emptyDetails
  | .page titleElem blob pTags =>
    detailDescFallback
      (detailPTagFallback ((detailInit titleElem).update (parse_detailed_text blob)) pTags)

/-- One crawl-result record: the card dictionary (`URL`, `Title`, `New`)
merged with the detail field map. -/
structure TenderRecord where
  url : Option Text := none
  title : Option Text := none
  isNew : Option Bool := none
  tenderType : Option Text := none
  bidNumber : Option Text := none
  department : Option Text := none
  bidDescription : Option Text := none
  location : Option Text := none
  openingDate : Option Text := none
  closingDate : Option Text := none
  modifiedDate : Option Text := none
  datePublished : Option Text := none
  contactPerson : Option Text := none
  email : Option Text := none
  tel : Option Text := none
  briefingSession : Option Text := none
  compulsoryBriefing : Option Text := none
  briefingDate : Option Text := none
  venue : Option Text := none
  specialConditions : Option Text := none
  description : Option Text := none
  deriving DecidableEq, Repr

/-- Merge a card's basic info with the detail field map
(`tender_info.update(detailed_info)`): the detail map's `Title`, when
present, overwrites the card title. -/
def mkRecord (cardTitle url : Text) (d : DetailFields) : TenderRecord :=
  { url := some url
    title := updOpt (some cardTitle) d.title
    isNew := some true
    tenderType := d.tenderType
    bidNumber := d.bidNumber
    department := d.department
    bidDescription := d.bidDescription
    location := d.location
    openingDate := d.openingDate
    closingDate := d.closingDate
    modifiedDate := d.modifiedDate
    datePublished := d.datePublished
    contactPerson := d.contactPerson
    email := d.email
    tel := d.tel
    briefingSession := d.briefingSession
    compulsoryBriefing := d.compulsoryBriefing
    briefingDate := d.briefingDate
    venue := d.venue
    specialConditions := d.specialConditions
    description := d.description }

/-- A card is new when it has a badge whose text contains `NEW`
(case-sensitive). -/
def isNewCard (c : Card) : Bool :=
  match c.badge with
  | some s => containsSubstr "NEW".toList s
  | none => false

/-- Modelled from the spec: stand-in for `urllib.parse.urljoin`, library
code outside this repository.  Faithful to the two behaviours the scraper
relies on: joining the empty reference returns the base unchanged, and
joining a non-empty reference returns a non-empty absolute URL (represented
here by the reference itself). -/
def urljoin (base url : Text) : Text := if url = [] then base else url

/-- Processing of one card inside the page loop of `scrape_tenders`:
returns the records appended and the detail URLs fetched for this card. -/
def processCard (base : Text) (site : Site) (card : Card) :
    List TenderRecord × List Text :=
  if isNewCard card then
    match card.link with
    | none => ([], [])
    | some a =>
      let title := clean_value a.text
      let url := urljoin base (a.href.getD [])
      if url = [] then ([], [])
      else ([mkRecord title url (scrape_tender_details site url)], [url])
  else ([], [])

/-- Processing of a page's card list, in card order. -/
def processCards (base : Text) (site : Site) (cs : List Card) :
    List TenderRecord × List Text :=
  cs.foldr
    (fun c r => ((processCard base site c).1 ++ r.1, (processCard base site c).2 ++ r.2))
    ([], [])

/-- The hard page ceiling of the source (`if page_num > 5: break`). -/
def pageLimit : Nat := 5

/-- The pagination loop of `scrape_tenders`, starting at the given page
with the given accumulated record list; also returns the ascending list of
listing pages fetched.  The loop terminates through the source's own page
check `page_num + 1 > pageLimit`; `fuel` is the structural bound
`pageLimit + 1 - page_num`, which that check keeps positive at every
recursive call, so the `fuel = 0` arm is never reached from `scrapeLoop`. -/
def scrapeLoopGo (site : Site) (base : Text) :
    Nat → List TenderRecord → Nat → List TenderRecord × List Nat
  | fuel, acc, page_num =>
    match site.listing page_num with
    | .fetchError => (acc, [page_num])
    | .noSection => (acc, [page_num])
    | .cards [] => (acc, [page_num])
    | .cards cs =>
      let acc' := acc ++ (processCards base site cs).1
      if cs.any isNewCard then
        if page_num + 1 > pageLimit then (acc', [page_num])
        else
          match fuel with
          | 0 => (acc', [page_num])
          | f + 1 =>
            let r := scrapeLoopGo site base f acc' (page_num + 1)
            (r.1, page_num :: r.2)
      else (acc', [page_num])

/-- Entry point of the pagination loop. -/
def scrapeLoop (site : Site) (base : Text) (acc : List TenderRecord) (page_num : Nat) :
    List TenderRecord × List Nat :=
  scrapeLoopGo site base (pageLimit + 1 - page_num) acc page_num

/-- The scraper instance: its base URL and the `self.tenders` list. -/
structure TenderScraper where
  base_url : Text
  tenders : List TenderRecord
  deriving DecidableEq, Repr

/-- The default base URL of `TenderScraper.__init__`. -/
def default_base_url : Text := "https://easytenders.co.za/tenders".toList

/-- A freshly constructed scraper (`TenderScraper(base_url)`), whose
`self.tenders` starts empty. -/
def TenderScraper.new (base : Text) : TenderScraper := ⟨base, []⟩

/-- The method `TenderScraper.scrape_tenders`: run the pagination loop from
page 1, appending into `self.tenders`, and return the (result list, fetched
pages) together with the mutated scraper. -/
def scrape_tenders (s : TenderScraper) (site : Site) :
    (List TenderRecord × List Nat) × TenderScraper :=
  let r := scrapeLoop site s.base_url s.tenders 1
  (r, { s with tenders := r.1 })

/-- Statement-level predicate: the record carries every one of the 21 keys
of the fixed field set with a defined value. -/
def recHasFullFieldSet (r : TenderRecord) : Prop :=
  r.url.isSome ∧ r.title.isSome ∧ r.isNew.isSome ∧ r.tenderType.isSome ∧
  r.bidNumber.isSome ∧ r.department.isSome ∧ r.bidDescription.isSome ∧
  r.location.isSome ∧ r.openingDate.isSome ∧ r.closingDate.isSome ∧
  r.modifiedDate.isSome ∧ r.datePublished.isSome ∧ r.contactPerson.isSome ∧
  r.email.isSome ∧ r.tel.isSome ∧ r.briefingSession.isSome ∧
  r.compulsoryBriefing.isSome ∧ r.briefingDate.isSome ∧ r.venue.isSome ∧
  r.specialConditions.isSome ∧ r.description.isSome

/-- Statement-level predicate: the 18 detail keys of the field map are all
present (the `Title` key may or may not be). -/
def DetailFields.allSet (d : DetailFields) : Prop :=
  d.tenderType.isSome ∧ d.bidNumber.isSome ∧ d.department.isSome ∧
  d.bidDescription.isSome ∧ d.location.isSome ∧ d.openingDate.isSome ∧
  d.closingDate.isSome ∧ d.modifiedDate.isSome ∧ d.datePublished.isSome ∧
  d.contactPerson.isSome ∧ d.email.isSome ∧ d.tel.isSome ∧
  d.briefingSession.isSome ∧ d.compulsoryBriefing.isSome ∧
  d.briefingDate.isSome ∧ d.venue.isSome ∧ d.specialConditions.isSome ∧
  d.description.isSome

/-- Statement-level predicate: every field of the record other than
`Title`, `URL` and `New` is the empty string. -/
def detailFieldsAllEmpty (r : TenderRecord) : Prop :=
  r.tenderType = some [] ∧ r.bidNumber = some [] ∧ r.department = some [] ∧
  r.bidDescription = some [] ∧ r.location = some [] ∧ r.openingDate = some [] ∧
  r.closingDate = some [] ∧ r.modifiedDate = some [] ∧ r.datePublished = some [] ∧
  r.contactPerson = some [] ∧ r.email = some [] ∧ r.tel = some [] ∧
  r.briefingSession = some [] ∧ r.compulsoryBriefing = some [] ∧
  r.briefingDate = some [] ∧ r.venue = some [] ∧ r.specialConditions = some [] ∧
  r.description = some []

/-- Statement-level predicate: the detail fetch failed with a transport
error or a missing container or active tab. -/
def detailFailed (df : DetailFetch) : Prop :=
  df = .fetchError ∨ df = .noSection ∨ df = .noTab

/-- Statement-level predicate: the text is empty or does not start with a
digit (so a digit run ending just before it is maximal). -/
def headNotDigit (b : Text) : Bool :=
  match b with
  | [] => true
  | c :: _ => !c.isDigit

/-- Fixture: a card flagged new with an anchor. -/
def exCard : Card :=
  { badge := some "NEW".toList, link := some { text := "T".toList, href := some "/x".toList } }

/-- Fixture: a site whose first page has one new card and whose second page
has none; every detail fetch raises. -/
def exSite : Site :=
  { listing := fun p => if p = 1 then .cards [exCard] else .cards []
    detail := fun _ => .fetchError }

/-- Fixture: a new card whose anchor has an empty href. -/
def exCardNoHref : Card :=
  { badge := some "NEW".toList, link := some { text := "E".toList, href := some [] } }

/-- Fixture: a new card with no anchor at all. -/
def exCardNoLink : Card := { badge := some "NEW".toList, link := none }

/-- Fixture: a detail blob whose briefing flag is YES and whose first
`Date`-labelled text belongs to the Opening Date field, not to the
briefing block. -/
def exBlobC6 : Text :=
  "Briefing Session: Yes\nOpening Date: Monday, 1 May 2024\nDate: Friday, 2 May 2024\nVenue: Hall".toList

/-- Fixture: a detail blob with briefing-shaped text but no YES flag. -/
def exBlobC2 : Text :=
  "Briefing Session: No\nDate: Friday, 2 May 2024\nVenue: Hall".toList

/-- Fixture: a site whose every detail fetch yields the no-YES blob. -/
def exSiteC2 : Site :=
  { listing := fun _ => .cards [], detail := fun _ => .page none exBlobC2 [] }

theorem char_toUpper_idem (c : Char) : c.toUpper.toUpper = c.toUpper := by
  unfold Char.toUpper
  by_cases h : 97 ≤ c.toNat ∧ c.toNat ≤ 122
  · obtain ⟨h1, h2⟩ := h
    have hc : Char.ofNat c.toNat = c := Char.ofNat_toNat c
    set n := c.toNat with hn
    interval_cases n <;> (rw [← hc]; decide)
  · simp only [ge_iff_le, if_neg h]

theorem upperT_idem (l : Text) : upperT (upperT l) = upperT l := by
  unfold upperT
  rw [List.map_map]
  apply List.map_congr_left
  intro c _
  exact char_toUpper_idem c

theorem briefVal_upper (label t : Text) :
    upperT (briefVal label t) = briefVal label t := by
  unfold briefVal
  cases reSearch (mYesNo label) t with
  | none => rfl
  | some g => exact upperT_idem g

theorem parseBase_briefingSession (t : Text) :
    (parseBase t).briefingSession = some (briefVal "Briefing Session".toList t) := rfl

theorem parseBase_compulsoryBriefing (t : Text) :
    (parseBase t).compulsoryBriefing = some (briefVal "Compulsory Briefing".toList t) := rfl

theorem parseBase_briefingDate (t : Text) : (parseBase t).briefingDate = none := by
  unfold parseBase
  split <;> rfl

theorem parseBase_venue (t : Text) : (parseBase t).venue = none := by
  unfold parseBase
  split <;> rfl

theorem parseBriefing_briefingSession (t : Text) (f : DetailFields) :
    (parseBriefing t f).briefingSession = f.briefingSession := by
  unfold parseBriefing
  dsimp only
  repeat' split
  all_goals rfl

theorem parseBriefing_compulsoryBriefing (t : Text) (f : DetailFields) :
    (parseBriefing t f).compulsoryBriefing = f.compulsoryBriefing := by
  unfold parseBriefing
  dsimp only
  repeat' split
  all_goals rfl

theorem parseBriefing_specialConditions (t : Text) (f : DetailFields) :
    (parseBriefing t f).specialConditions = f.specialConditions := by
  unfold parseBriefing
  dsimp only
  repeat' split
  all_goals rfl

theorem parseConditions_briefingSession (t : Text) (f : DetailFields) :
    (parseConditions t f).briefingSession = f.briefingSession := by
  unfold parseConditions
  split <;> rfl

theorem parseConditions_compulsoryBriefing (t : Text) (f : DetailFields) :
    (parseConditions t f).compulsoryBriefing = f.compulsoryBriefing := by
  unfold parseConditions
  split <;> rfl

theorem parseConditions_briefingDate (t : Text) (f : DetailFields) :
    (parseConditions t f).briefingDate = f.briefingDate := by
  unfold parseConditions
  split <;> rfl

theorem parseConditions_venue (t : Text) (f : DetailFields) :
    (parseConditions t f).venue = f.venue := by
  unfold parseConditions
  split <;> rfl

theorem parse_briefingSession (t : Text) :
    (parse_detailed_text t).briefingSession = some (briefVal "Briefing Session".toList t) := by
  unfold parse_detailed_text
  rw [parseConditions_briefingSession, parseBriefing_briefingSession,
    parseBase_briefingSession]

theorem parse_compulsoryBriefing (t : Text) :
    (parse_detailed_text t).compulsoryBriefing = some (briefVal "Compulsory Briefing".toList t) := by
  unfold parse_detailed_text
  rw [parseConditions_compulsoryBriefing, parseBriefing_compulsoryBriefing,
    parseBase_compulsoryBriefing]

theorem parse_briefing_forced (t : Text)
    (h1 : briefVal "Briefing Session".toList t ≠ "YES".toList)
    (h2 : briefVal "Compulsory Briefing".toList t ≠ "YES".toList) :
    (parse_detailed_text t).briefingDate = some [] ∧
      (parse_detailed_text t).venue = some [] := by
  unfold parse_detailed_text
  rw [parseConditions_briefingDate, parseConditions_venue]
  unfold parseBriefing
  rw [if_neg]
  · exact ⟨rfl, rfl⟩
  · simp only [briefVal_upper]
    simp only [Bool.or_eq_true, decide_eq_true_eq, not_or]
    exact ⟨h1, h2⟩

theorem parse_briefing_chain (t : Text)
    (h : briefVal "Briefing Session".toList t = "YES".toList ∨
         briefVal "Compulsory Briefing".toList t = "YES".toList) :
    (parse_detailed_text t).briefingDate = (briefingDateChain t).map clean_value ∧
      (parse_detailed_text t).venue = (reSearch mVenueInline t).map clean_value := by
  unfold parse_detailed_text
  rw [parseConditions_briefingDate, parseConditions_venue]
  unfold parseBriefing
  rw [if_pos]
  · constructor
    · cases hc : briefingDateChain t <;>
        cases hv : reSearch mVenueInline t <;>
          simp only [Option.map_some, Option.map_none] <;>
            first
              | rfl
              | (show (parseBase t).briefingDate = none; exact parseBase_briefingDate t)
    · cases hc : briefingDateChain t <;>
        cases hv : reSearch mVenueInline t <;>
          simp only [Option.map_some, Option.map_none] <;>
            first
              | rfl
              | (show (parseBase t).venue = none; exact parseBase_venue t)
  · simp only [briefVal_upper]
    simp only [Bool.or_eq_true, decide_eq_true_eq]
    exact h

theorem pTagStep_pres (d : DetailFields) (p : Text) :
    (pTagStep d p).briefingSession = d.briefingSession ∧
      (pTagStep d p).compulsoryBriefing = d.compulsoryBriefing ∧
      (pTagStep d p).briefingDate = d.briefingDate ∧
      (pTagStep d p).venue = d.venue := by
  unfold pTagStep
  repeat' split
  all_goals exact ⟨rfl, rfl, rfl, rfl⟩

theorem pTagFold_pres (ps : List Text) (d : DetailFields) :
    (ps.foldl pTagStep d).briefingSession = d.briefingSession ∧
      (ps.foldl pTagStep d).compulsoryBriefing = d.compulsoryBriefing ∧
      (ps.foldl pTagStep d).briefingDate = d.briefingDate ∧
      (ps.foldl pTagStep d).venue = d.venue := by
  induction ps generalizing d with
  | nil => exact ⟨rfl, rfl, rfl, rfl⟩
  | cons p ps ih =>
    have h1 := pTagStep_pres d p
    have h2 := ih (pTagStep d p)
    simp only [List.foldl] at h2 ⊢
    exact ⟨h2.1.trans h1.1, h2.2.1.trans h1.2.1, h2.2.2.1.trans h1.2.2.1,
      h2.2.2.2.trans h1.2.2.2⟩

theorem detailInit_briefing (te : Option Text) :
    (detailInit te).briefingSession = some [] ∧
      (detailInit te).compulsoryBriefing = some [] ∧
      (detailInit te).briefingDate = some [] ∧
      (detailInit te).venue = some [] := by
  unfold detailInit
  split <;> exact ⟨rfl, rfl, rfl, rfl⟩

theorem detailPTagFallback_pres (d1 : DetailFields) (ps : List Text) :
    (detailPTagFallback d1 ps).briefingSession = d1.briefingSession ∧
      (detailPTagFallback d1 ps).compulsoryBriefing = d1.compulsoryBriefing ∧
      (detailPTagFallback d1 ps).briefingDate = d1.briefingDate ∧
      (detailPTagFallback d1 ps).venue = d1.venue := by
  unfold detailPTagFallback
  dsimp only
  split
  · exact pTagFold_pres ps d1
  · exact ⟨rfl, rfl, rfl, rfl⟩

theorem detailDescFallback_pres (d2 : DetailFields) :
    (detailDescFallback d2).briefingSession = d2.briefingSession ∧
      (detailDescFallback d2).compulsoryBriefing = d2.compulsoryBriefing ∧
      (detailDescFallback d2).briefingDate = d2.briefingDate ∧
      (detailDescFallback d2).venue = d2.venue := by
  unfold detailDescFallback
  dsimp only
  split <;> exact ⟨rfl, rfl, rfl, rfl⟩

theorem scrape_details_briefing (site : Site) (url : Text) :
    scrape_tender_details site url = emptyDetails ∨
    ∃ blob,
      (scrape_tender_details site url).briefingSession =
          (parse_detailed_text blob).briefingSession ∧
        (scrape_tender_details site url).compulsoryBriefing =
          (parse_detailed_text blob).compulsoryBriefing ∧
        (scrape_tender_details site url).briefingDate =
          updOpt (some []) (parse_detailed_text blob).briefingDate ∧
        (scrape_tender_details site url).venue =
          updOpt (some []) (parse_detailed_text blob).venue := by
  unfold scrape_tender_details
  cases hdf : site.detail url with
  | fetchError => exact Or.inl rfl
  | noSection => exact Or.inl rfl
  | noTab => exact Or.inl rfl
  | page titleElem blob pTags =>
    refine Or.inr ⟨blob, ?_⟩
    have hin := detailInit_briefing titleElem
    have hd1 := detailPTagFallback_pres
      ((detailInit titleElem).update (parse_detailed_text blob)) pTags
    have hd2 := detailDescFallback_pres
      (detailPTagFallback ((detailInit titleElem).update (parse_detailed_text blob)) pTags)
    have hub : ((detailInit titleElem).update (parse_detailed_text blob)).briefingSession =
        updOpt (detailInit titleElem).briefingSession
          (parse_detailed_text blob).briefingSession := rfl
    have huc : ((detailInit titleElem).update (parse_detailed_text blob)).compulsoryBriefing =
        updOpt (detailInit titleElem).compulsoryBriefing
          (parse_detailed_text blob).compulsoryBriefing := rfl
    have hud : ((detailInit titleElem).update (parse_detailed_text blob)).briefingDate =
        updOpt (detailInit titleElem).briefingDate
          (parse_detailed_text blob).briefingDate := rfl
    have huv : ((detailInit titleElem).update (parse_detailed_text blob)).venue =
        updOpt (detailInit titleElem).venue (parse_detailed_text blob).venue := rfl
    refine ⟨?_, ?_, ?_, ?_⟩
    · rw [hd2.1, hd1.1, hub, hin.1, parse_briefingSession]; rfl
    · rw [hd2.2.1, hd1.2.1, huc, hin.2.1, parse_compulsoryBriefing]; rfl
    · rw [hd2.2.2.1, hd1.2.2.1, hud, hin.2.2.1]
    · rw [hd2.2.2.2, hd1.2.2.2, huv, hin.2.2.2]

/-- C2: for every detail blob, the produced record's `Briefing Date` and
`Venue` fields are empty strings whenever both `Briefing Session` and
`Compulsory Briefing` differ from `"YES"`, regardless of what
briefing-shaped text appears in the blob. -/
theorem briefing_fields_forced_empty (site : Site) (url : Text)
    (h1 : (scrape_tender_details site url).briefingSession ≠ some "YES".toList)
    (h2 : (scrape_tender_details site url).compulsoryBriefing ≠ some "YES".toList) :
    (scrape_tender_details site url).briefingDate = some [] ∧
      (scrape_tender_details site url).venue = some [] := by
  rcases scrape_details_briefing site url with h | ⟨blob, hbs, hcb, hbd, hv⟩
  · rw [h]; exact ⟨rfl, rfl⟩
  · have hb1 : briefVal "Briefing Session".toList blob ≠ "YES".toList := by
      intro he
      exact h1 (by rw [hbs, parse_briefingSession, he])
    have hb2 : briefVal "Compulsory Briefing".toList blob ≠ "YES".toList := by
      intro he
      exact h2 (by rw [hcb, parse_compulsoryBriefing, he])
    have hp := parse_briefing_forced blob hb1 hb2
    rw [hbd, hv, hp.1, hp.2]
    exact ⟨rfl, rfl⟩

/-- Witness for `briefing_fields_forced_empty` at a concrete site whose
detail blob has briefing-shaped text but no YES flag. -/
theorem briefing_fields_forced_empty_witness :
    (scrape_tender_details exSiteC2 "u".toList).briefingDate = some [] ∧
      (scrape_tender_details exSiteC2 "u".toList).venue = some [] :=
  briefing_fields_forced_empty exSiteC2 "u".toList (by decide) (by decide)

/-- C6 counterexample: on a blob whose briefing flag is YES, whose
`Opening Date` line precedes the briefing block, and whose briefing block
carries `Date: Friday, 2 May 2024`, the parser stores the Opening Date's
value as the Briefing Date: the bare-`Date` patterns match the `Date`
embedded in the earlier `Opening Date` label, so the extraction is not
scoped to the briefing context. -/
theorem briefing_date_scope_cex :
    (parse_detailed_text exBlobC6).briefingSession = some "YES".toList ∧
      (parse_detailed_text exBlobC6).openingDate = some "Monday, 1 May 2024".toList ∧
      (parse_detailed_text exBlobC6).briefingDate = some "Monday, 1 May 2024".toList ∧
      (parse_detailed_text exBlobC6).briefingDate ≠ some "Friday, 2 May 2024".toList := by
  decide

/-- C6 amended: whenever `Briefing Session` or `Compulsory Briefing` is
`"YES"`, the Briefing Date is extracted by the 3-pattern fallback chain
applied to the whole blob — the leftmost match of the literal label `Date`
wins, including `Date` labels that belong to other fields such as
`Opening Date` or `Closing Date`. -/
theorem briefing_date_whole_blob (t : Text)
    (h : (parse_detailed_text t).briefingSession = some "YES".toList ∨
         (parse_detailed_text t).compulsoryBriefing = some "YES".toList) :
    (parse_detailed_text t).briefingDate = (briefingDateChain t).map clean_value := by
  have h' : briefVal "Briefing Session".toList t = "YES".toList ∨
      briefVal "Compulsory Briefing".toList t = "YES".toList := by
    rcases h with h | h
    · rw [parse_briefingSession] at h
      exact Or.inl (Option.some.inj h)
    · rw [parse_compulsoryBriefing] at h
      exact Or.inr (Option.some.inj h)
  exact (parse_briefing_chain t h').1

/-- Witness for `briefing_date_whole_blob` at the fixture blob. -/
theorem briefing_date_whole_blob_witness :
    (parse_detailed_text exBlobC6).briefingDate =
      (briefingDateChain exBlobC6).map clean_value :=
  briefing_date_whole_blob exBlobC6 (Or.inl (by decide))

/-- C4: for every detail blob matched by the special-conditions pattern,
the stored value is the normalized capture truncated with a 3-character
ellipsis marker; the output never exceeds 500 + 3 characters, and for
normalized text longer than 500 characters the output has length 500, ends
with the 3-character ellipsis marker, and its first 497 characters equal
the first 497 characters of the normalized source. -/
theorem special_conditions_truncation (t c : Text)
    (h : reSearch mConditions t = some c) :
    (parse_detailed_text t).specialConditions =
        some (truncate500 (clean_value (strip c))) ∧
      (truncate500 (clean_value (strip c))).length ≤ 500 + 3 ∧
      (500 < (clean_value (strip c)).length →
        (truncate500 (clean_value (strip c))).length = 500 ∧
          (truncate500 (clean_value (strip c))).drop 497 = "...".toList ∧
          (truncate500 (clean_value (strip c))).take 497 =
            (clean_value (strip c)).take 497) := by
  refine ⟨?_, ?_, ?_⟩
  · unfold parse_detailed_text parseConditions
    rw [h]
  · unfold truncate500
    split
    · rw [List.length_append, List.length_take]
      have h3 : ("...".toList : Text).length = 3 := rfl
      rw [h3]
      omega
    · rename_i hl
      omega
  · intro hl
    unfold truncate500
    rw [if_pos hl]
    have hlen : ((clean_value (strip c)).take 497).length = 497 := by
      rw [List.length_take]
      omega
    refine ⟨?_, ?_, ?_⟩
    · rw [List.length_append, hlen]
      decide
    · exact List.drop_left' hlen
    · exact List.take_left' hlen

/-- Witness for `special_conditions_truncation` at a concrete blob. -/
theorem special_conditions_truncation_witness :
    (parse_detailed_text "Special Conditions: keep it short".toList).specialConditions =
        some (truncate500 (clean_value (strip "keep it short".toList))) ∧
      (truncate500 (clean_value (strip "keep it short".toList))).length ≤ 500 + 3 ∧
      (500 < (clean_value (strip "keep it short".toList)).length →
        (truncate500 (clean_value (strip "keep it short".toList))).length = 500 ∧
          (truncate500 (clean_value (strip "keep it short".toList))).drop 497 = "...".toList ∧
          (truncate500 (clean_value (strip "keep it short".toList))).take 497 =
            (clean_value (strip "keep it short".toList)).take 497) :=
  special_conditions_truncation "Special Conditions: keep it short".toList
    "keep it short".toList (by decide)

/-- C10: for every listing card flagged new that contains an anchor, the
stub's URL is non-empty even when the anchor's href is empty or missing —
it resolves via URL-joining with the listing base URL to the base URL
itself, so the card is detail-fetched and a record is appended; a new card
with no anchor at all is silently dropped: no detail fetch, no record. -/
theorem new_card_anchor_url :
    (∀ (base : Text) (site : Site) (c : Card) (a : Anchor),
        isNewCard c = true → c.link = some a →
        (a.href = none ∨ a.href = some []) → base ≠ [] →
        processCard base site c =
          ([mkRecord (clean_value a.text) base (scrape_tender_details site base)],
            [base])) ∧
      (∀ (base : Text) (site : Site) (c : Card),
        isNewCard c = true → c.link = none → processCard base site c = ([], [])) := by
  constructor
  · intro base site c a hnew hlink hhref hbase
    unfold processCard
    rw [hnew, hlink]
    have hjoin : urljoin base (a.href.getD []) = base := by
      rcases hhref with h | h <;> rw [h] <;> rfl
    simp only [if_pos rfl]
    rw [hjoin, if_neg hbase]
    simp
  · intro base site c hnew hlink
    unfold processCard
    rw [hnew, hlink]
    simp

/-- Witness for `new_card_anchor_url` at concrete cards. -/
theorem new_card_anchor_url_witness :
    processCard default_base_url exSite exCardNoHref =
        ([mkRecord (clean_value "E".toList) default_base_url
            (scrape_tender_details exSite default_base_url)], [default_base_url]) ∧
      processCard default_base_url exSite exCardNoLink = ([], []) :=
  ⟨new_card_anchor_url.1 default_base_url exSite exCardNoHref
      { text := "E".toList, href := some [] } (by decide) rfl (Or.inr rfl) (by decide),
    new_card_anchor_url.2 default_base_url exSite exCardNoLink (by decide) rfl⟩

theorem scrape_details_of_failed (site : Site) (url : Text)
    (h : detailFailed (site.detail url)) :
    scrape_tender_details site url = emptyDetails := by
  unfold scrape_tender_details
  rcases h with h | h | h <;> rw [h]

theorem processCards_append (base : Text) (site : Site) (xs ys : List Card) :
    processCards base site (xs ++ ys) =
      ((processCards base site xs).1 ++ (processCards base site ys).1,
        (processCards base site xs).2 ++ (processCards base site ys).2) := by
  induction xs with
  | nil => simp [processCards]
  | cons c cs ih =>
    have hstep : ∀ zs, processCards base site (c :: zs) =
        ((processCard base site c).1 ++ (processCards base site zs).1,
          (processCard base site c).2 ++ (processCards base site zs).2) := fun zs => rfl
    show processCards base site (c :: (cs ++ ys)) = _
    rw [hstep, ih, hstep]
    simp [List.append_assoc]

/-- C7: a stub whose detail fetch raises a transport error, or whose
expected detail container or active tab is absent, does not abort the
crawl: a record whose non-title/URL fields are all empty strings is still
produced for that stub and appended in place, and the cards before and
after it are processed exactly as they would otherwise be. -/
theorem detail_failure_partial_record (base : Text) (site : Site)
    (pre post : List Card) (c : Card) (a : Anchor)
    (hnew : isNewCard c = true) (hlink : c.link = some a)
    (hurl : urljoin base (a.href.getD []) ≠ [])
    (hfail : detailFailed (site.detail (urljoin base (a.href.getD [])))) :
    (processCards base site (pre ++ c :: post)).1 =
        (processCards base site pre).1 ++
          mkRecord (clean_value a.text) (urljoin base (a.href.getD [])) emptyDetails ::
            (processCards base site post).1 ∧
      detailFieldsAllEmpty
        (mkRecord (clean_value a.text) (urljoin base (a.href.getD [])) emptyDetails) ∧
      (mkRecord (clean_value a.text) (urljoin base (a.href.getD [])) emptyDetails).isNew =
        some true := by
  have hcard : processCard base site c =
      ([mkRecord (clean_value a.text) (urljoin base (a.href.getD [])) emptyDetails],
        [urljoin base (a.href.getD [])]) := by
    unfold processCard
    rw [hnew, hlink]
    simp only [if_pos rfl]
    rw [if_neg hurl, scrape_details_of_failed site _ hfail]
    simp
  refine ⟨?_, ?_, rfl⟩
  · have h1 := processCards_append base site pre (c :: post)
    have h2 : processCards base site (c :: post) =
        ((processCard base site c).1 ++ (processCards base site post).1,
          (processCard base site c).2 ++ (processCards base site post).2) := rfl
    rw [h1, h2, hcard]
    rfl
  · exact ⟨rfl, rfl, rfl, rfl, rfl, rfl, rfl, rfl, rfl, rfl, rfl, rfl, rfl, rfl, rfl,
      rfl, rfl, rfl⟩

/-- Witness for `detail_failure_partial_record` at a concrete site whose
detail fetch raises. -/
theorem detail_failure_partial_record_witness :
    (processCards default_base_url exSite ([] ++ exCard :: [])).1 =
        (processCards default_base_url exSite []).1 ++
          mkRecord (clean_value "T".toList)
              (urljoin default_base_url ((some "/x".toList).getD [])) emptyDetails ::
            (processCards default_base_url exSite []).1 ∧
      detailFieldsAllEmpty
        (mkRecord (clean_value "T".toList)
          (urljoin default_base_url ((some "/x".toList).getD [])) emptyDetails) ∧
      (mkRecord (clean_value "T".toList)
          (urljoin default_base_url ((some "/x".toList).getD [])) emptyDetails).isNew =
        some true :=
  detail_failure_partial_record default_base_url exSite [] [] exCard
    { text := "T".toList, href := some "/x".toList }
    (by decide) rfl (by decide) (Or.inl rfl)

theorem scrapeLoopGo_append (site : Site) (base : Text) :
    ∀ (fuel : Nat) (acc : List TenderRecord) (p : Nat),
      (scrapeLoopGo site base fuel acc p).1 = acc ++ (scrapeLoopGo site base fuel [] p).1 ∧
        (scrapeLoopGo site base fuel acc p).2 = (scrapeLoopGo site base fuel [] p).2 := by
  intro fuel
  induction fuel with
  | zero =>
    intro acc p
    unfold scrapeLoopGo
    cases h : site.listing p with
    | fetchError => simp
    | noSection => simp
    | cards cs =>
      cases cs with
      | nil => simp
      | cons c cs' =>
        dsimp only
        split
        · split
          · simp
          · simp
        · simp
  | succ f ih =>
    intro acc p
    unfold scrapeLoopGo
    cases h : site.listing p with
    | fetchError => simp
    | noSection => simp
    | cards cs =>
      cases cs with
      | nil => simp
      | cons c cs' =>
        dsimp only
        split
        · split
          · simp
          · have h1 := ih (acc ++ (processCards base site (c :: cs')).1) (p + 1)
            have h2 := ih ([] ++ (processCards base site (c :: cs')).1) (p + 1)
            constructor
            · dsimp only
              rw [h1.1, h2.1]
              simp
            · dsimp only
              rw [h1.2, h2.2]
        · simp

/-- C9 amended: one crawl invocation returns `self.tenders` extended with
the records discovered during that invocation, so a second invocation on
the same object returns the first invocation's records followed by the
second's; the result equals a fresh scraper's result only because the
accumulated list starts empty on a fresh object. -/
theorem scrape_tenders_appends (s : TenderScraper) (site : Site) :
    (scrape_tenders s site).1.1 =
      s.tenders ++ (scrape_tenders (TenderScraper.new s.base_url) site).1.1 := by
  unfold scrape_tenders TenderScraper.new
  exact (scrapeLoopGo_append site s.base_url (pageLimit + 1 - 1) s.tenders 1).1

/-- C9 counterexample: invoking the crawl a second time on the same object
does not yield the same result sequence as invoking it on a freshly
constructed scraper — `self.tenders` accumulates across invocations. -/
theorem crawl_rerun_cex :
    (scrape_tenders (scrape_tenders (TenderScraper.new default_base_url) exSite).2 exSite).1.1 ≠
      (scrape_tenders (TenderScraper.new default_base_url) exSite).1.1 := by
  decide

theorem scrapeLoopGo_trace (site : Site) (base : Text) :
    ∀ (fuel : Nat) (acc : List TenderRecord) (p : Nat), 1 ≤ p → p ≤ pageLimit →
      (scrapeLoopGo site base fuel acc p).2 =
          List.range' p (scrapeLoopGo site base fuel acc p).2.length ∧
        1 ≤ (scrapeLoopGo site base fuel acc p).2.length ∧
        p + (scrapeLoopGo site base fuel acc p).2.length ≤ pageLimit + 1 ∧
        (∀ q cs, q ∈ (scrapeLoopGo site base fuel acc p).2 → site.listing q = .cards cs →
          cs.any isNewCard = false →
          ∀ q' ∈ (scrapeLoopGo site base fuel acc p).2, q' ≤ q) := by
  intro fuel
  induction fuel with
  | zero =>
    intro acc p hp1 hp5
    unfold scrapeLoopGo
    cases h : site.listing p with
    | fetchError =>
      refine ⟨rfl, by simp, by simp [pageLimit] at hp5 ⊢; omega, ?_⟩
      intro q cs hq _ _ q' hq'
      simp at hq hq'
      omega
    | noSection =>
      refine ⟨rfl, by simp, by simp [pageLimit] at hp5 ⊢; omega, ?_⟩
      intro q cs hq _ _ q' hq'
      simp at hq hq'
      omega
    | cards cs =>
      cases cs with
      | nil =>
        refine ⟨rfl, by simp, by simp [pageLimit] at hp5 ⊢; omega, ?_⟩
        intro q cs hq _ _ q' hq'
        simp at hq hq'
        omega
      | cons c cs' =>
        dsimp only
        split
        all_goals first
          | (split
             all_goals
               refine ⟨rfl, by simp, by simp [pageLimit] at hp5 ⊢; omega, ?_⟩
             all_goals
               intro q cs2 hq _ _ q' hq'
             all_goals simp at hq hq'
             all_goals omega)
          | (refine ⟨rfl, by simp, by simp [pageLimit] at hp5 ⊢; omega, ?_⟩
             intro q cs2 hq _ _ q' hq'
             simp at hq hq'
             omega)
  | succ f ih =>
    intro acc p hp1 hp5
    unfold scrapeLoopGo
    cases h : site.listing p with
    | fetchError =>
      refine ⟨rfl, by simp, by simp [pageLimit] at hp5 ⊢; omega, ?_⟩
      intro q cs hq _ _ q' hq'
      simp at hq hq'
      omega
    | noSection =>
      refine ⟨rfl, by simp, by simp [pageLimit] at hp5 ⊢; omega, ?_⟩
      intro q cs hq _ _ q' hq'
      simp at hq hq'
      omega
    | cards cs =>
      cases cs with
      | nil =>
        refine ⟨rfl, by simp, by simp [pageLimit] at hp5 ⊢; omega, ?_⟩
        intro q cs hq _ _ q' hq'
        simp at hq hq'
        omega
      | cons c cs' =>
        dsimp only
        split
        · split
          · refine ⟨rfl, by simp, by simp [pageLimit] at hp5 ⊢; omega, ?_⟩
            intro q cs2 hq _ _ q' hq'
            simp at hq hq'
            omega
          · rename_i hany hlim
            have hlim' : p + 1 ≤ pageLimit := by omega
            have hih := ih (acc ++ (processCards base site (c :: cs')).1) (p + 1)
              (by omega) hlim'
            dsimp only
            rw [List.length_cons]
            obtain ⟨ih1, ih2, ih3, ih4⟩ := hih
            refine ⟨?_, by omega, by omega, ?_⟩
            · rw [List.range'_succ]
              exact congrArg (p :: ·) ih1
            · intro q cs2 hq hlist hany2 q' hq'
              rcases List.mem_cons.mp hq with rfl | hq
              · exfalso
                rw [h] at hlist
                cases hlist
                rw [hany2] at hany
                exact Bool.false_ne_true hany
              · rcases List.mem_cons.mp hq' with rfl | hq'
                · have hq2 := hq
                  rw [ih1] at hq2
                  have hb := (List.mem_range'_1).mp hq2
                  omega
                · exact ih4 q cs2 hq hlist hany2 q' hq'
        · refine ⟨rfl, by simp, by simp [pageLimit] at hp5 ⊢; omega, ?_⟩
          intro q cs2 hq _ _ q' hq'
          simp at hq hq'
          omega

/-- C3: for every crawl invocation, listing pages are fetched in ascending
order starting at page 1; the number of pages fetched never exceeds the
configured page ceiling (the source's constant 5); and whenever a fetched
page yields a card list with zero new cards, no later page is fetched. -/
theorem crawl_pagination_ascending_bounded (s : TenderScraper) (site : Site) :
    (scrape_tenders s site).1.2 =
        List.range' 1 (scrape_tenders s site).1.2.length ∧
      1 ≤ (scrape_tenders s site).1.2.length ∧
      (scrape_tenders s site).1.2.length ≤ pageLimit ∧
      (∀ q cs, q ∈ (scrape_tenders s site).1.2 → site.listing q = .cards cs →
        cs.any isNewCard = false → ∀ q' ∈ (scrape_tenders s site).1.2, q' ≤ q) := by
  unfold scrape_tenders scrapeLoop
  dsimp only
  have h := scrapeLoopGo_trace site s.base_url (pageLimit + 1 - 1) s.tenders 1
    (by omega) (by simp [pageLimit])
  exact ⟨h.1, h.2.1, by have := h.2.2.1; omega, h.2.2.2⟩

/-- Witness for `crawl_pagination_ascending_bounded` at a concrete site:
its trace is ascending from page 1, within the ceiling, and the
zero-new-stub condition instantiates at page 2. -/
theorem crawl_pagination_witness :
    (scrape_tenders (TenderScraper.new default_base_url) exSite).1.2 =
        List.range' 1
          (scrape_tenders (TenderScraper.new default_base_url) exSite).1.2.length ∧
      (scrape_tenders (TenderScraper.new default_base_url) exSite).1.2.length ≤ pageLimit ∧
      (1 : Nat) ≤ 2 := by
  have h := crawl_pagination_ascending_bounded (TenderScraper.new default_base_url) exSite
  refine ⟨h.1, h.2.2.1, ?_⟩
  exact h.2.2.2 2 [] (by decide) (by decide) (by decide) 1 (by decide)

theorem updOpt_isSome (a b : Option Text) (h : a.isSome) : (updOpt a b).isSome := by
  cases b with
  | none => exact h
  | some v => rfl

theorem emptyDetails_allSet : emptyDetails.allSet := by
  exact ⟨rfl, rfl, rfl, rfl, rfl, rfl, rfl, rfl, rfl, rfl, rfl, rfl, rfl, rfl, rfl,
    rfl, rfl, rfl⟩

theorem detailInit_allSet (te : Option Text) : (detailInit te).allSet := by
  unfold detailInit
  split <;>
    exact ⟨rfl, rfl, rfl, rfl, rfl, rfl, rfl, rfl, rfl, rfl, rfl, rfl, rfl, rfl, rfl,
      rfl, rfl, rfl⟩

theorem update_allSet (d e : DetailFields) (h : d.allSet) : (d.update e).allSet := by
  obtain ⟨h1, h2, h3, h4, h5, h6, h7, h8, h9, h10, h11, h12, h13, h14, h15, h16, h17, h18⟩ := h
  exact ⟨updOpt_isSome _ _ h1, updOpt_isSome _ _ h2, updOpt_isSome _ _ h3,
    updOpt_isSome _ _ h4, updOpt_isSome _ _ h5, updOpt_isSome _ _ h6,
    updOpt_isSome _ _ h7, updOpt_isSome _ _ h8, updOpt_isSome _ _ h9,
    updOpt_isSome _ _ h10, updOpt_isSome _ _ h11, updOpt_isSome _ _ h12,
    updOpt_isSome _ _ h13, updOpt_isSome _ _ h14, updOpt_isSome _ _ h15,
    updOpt_isSome _ _ h16, updOpt_isSome _ _ h17, updOpt_isSome _ _ h18⟩

theorem pTagStep_allSet (d : DetailFields) (p : Text) (h : d.allSet) :
    (pTagStep d p).allSet := by
  obtain ⟨h1, h2, h3, h4, h5, h6, h7, h8, h9, h10, h11, h12, h13, h14, h15, h16, h17, h18⟩ := h
  unfold pTagStep
  repeat' split
  all_goals first
    | exact ⟨h1, h2, h3, h4, h5, h6, h7, h8, h9, h10, h11, h12, h13, h14, h15, h16, h17, h18⟩
    | exact ⟨h1, h2, h3, h4, h5, rfl, h7, h8, h9, h10, h11, h12, h13, h14, h15, h16, h17, h18⟩
    | exact ⟨h1, h2, h3, h4, h5, h6, rfl, h8, h9, h10, h11, h12, h13, h14, h15, h16, h17, h18⟩
    | exact ⟨h1, h2, h3, h4, h5, h6, h7, rfl, h9, h10, h11, h12, h13, h14, h15, h16, h17, h18⟩

theorem pTagFold_allSet (ps : List Text) (d : DetailFields) (h : d.allSet) :
    (ps.foldl pTagStep d).allSet := by
  induction ps generalizing d with
  | nil => exact h
  | cons p ps ih => exact ih (pTagStep d p) (pTagStep_allSet d p h)

theorem detailPTagFallback_allSet (d : DetailFields) (ps : List Text) (h : d.allSet) :
    (detailPTagFallback d ps).allSet := by
  unfold detailPTagFallback
  dsimp only
  split
  · exact pTagFold_allSet ps d h
  · exact h

theorem detailDescFallback_allSet (d : DetailFields) (h : d.allSet) :
    (detailDescFallback d).allSet := by
  obtain ⟨h1, h2, h3, h4, h5, h6, h7, h8, h9, h10, h11, h12, h13, h14, h15, h16, h17, h18⟩ := h
  unfold detailDescFallback
  dsimp only
  split
  · exact ⟨h1, h2, h3, h4, h5, h6, h7, h8, h9, h10, h11, h12, h13, h14, h15, h16, h17, rfl⟩
  · exact ⟨h1, h2, h3, h4, h5, h6, h7, h8, h9, h10, h11, h12, h13, h14, h15, h16, h17, h18⟩

theorem scrape_details_allSet (site : Site) (url : Text) :
    (scrape_tender_details site url).allSet := by
  unfold scrape_tender_details
  cases site.detail url with
  | fetchError => exact emptyDetails_allSet
  | noSection => exact emptyDetails_allSet
  | noTab => exact emptyDetails_allSet
  | page titleElem blob pTags =>
    exact detailDescFallback_allSet _
      (detailPTagFallback_allSet _ _
        (update_allSet _ _ (detailInit_allSet titleElem)))

theorem mkRecord_full (t u : Text) (d : DetailFields) (h : d.allSet) :
    recHasFullFieldSet (mkRecord t u d) := by
  obtain ⟨h1, h2, h3, h4, h5, h6, h7, h8, h9, h10, h11, h12, h13, h14, h15, h16, h17, h18⟩ := h
  exact ⟨rfl, updOpt_isSome _ _ rfl, rfl, h1, h2, h3, h4, h5, h6, h7, h8, h9, h10,
    h11, h12, h13, h14, h15, h16, h17, h18⟩

theorem processCard_mem (base : Text) (site : Site) (c : Card) (r : TenderRecord)
    (h : r ∈ (processCard base site c).1) :
    ∃ t u, r = mkRecord t u (scrape_tender_details site u) := by
  unfold processCard at h
  dsimp only at h
  repeat' split at h
  all_goals first
    | exact absurd h (List.not_mem_nil r)
    | (rw [List.mem_singleton] at h; exact ⟨_, _, h⟩)

theorem processCards_mem (base : Text) (site : Site) (cs : List Card) (r : TenderRecord)
    (h : r ∈ (processCards base site cs).1) :
    ∃ t u, r = mkRecord t u (scrape_tender_details site u) := by
  induction cs with
  | nil => exact absurd h (List.not_mem_nil r)
  | cons c cs' ih =>
    have hsplit : (processCards base site (c :: cs')).1 =
        (processCard base site c).1 ++ (processCards base site cs').1 := rfl
    rw [hsplit] at h
    rcases List.mem_append.mp h with h | h
    · exact processCard_mem base site c r h
    · exact ih h

theorem scrapeLoopGo_mem (site : Site) (base : Text) :
    ∀ (fuel : Nat) (acc : List TenderRecord) (p : Nat) (r : TenderRecord),
      r ∈ (scrapeLoopGo site base fuel acc p).1 →
      r ∈ acc ∨ ∃ t u, r = mkRecord t u (scrape_tender_details site u) := by
  intro fuel
  induction fuel with
  | zero =>
    intro acc p r h
    unfold scrapeLoopGo at h
    dsimp only at h
    repeat' split at h
    all_goals dsimp only at h
    all_goals first
      | exact Or.inl h
      | (rcases List.mem_append.mp h with h | h
         · exact Or.inl h
         · exact Or.inr (processCards_mem _ site _ r h))
  | succ f ih =>
    intro acc p r h
    unfold scrapeLoopGo at h
    dsimp only at h
    repeat' split at h
    all_goals dsimp only at h
    all_goals first
      | exact Or.inl h
      | (rcases List.mem_append.mp h with h | h
         · exact Or.inl h
         · exact Or.inr (processCards_mem _ site _ r h))
      | (rcases ih _ _ r h with h | h
         · rcases List.mem_append.mp h with h | h
           · exact Or.inl h
           · exact Or.inr (processCards_mem _ site _ r h)
         · exact Or.inr h)

/-- C1: every record appended to the crawl results by an invocation of
`scrape_tenders` carries the full fixed 21-key field set with a defined
value in every key — absent extraction yields a value (the empty string),
never a missing key. -/
theorem tender_record_full_field_set (s : TenderScraper) (site : Site) (r : TenderRecord)
    (h : r ∈ ((scrape_tenders s site).1.1).drop s.tenders.length) :
    recHasFullFieldSet r := by
  unfold scrape_tenders scrapeLoop at h
  dsimp only at h
  rw [(scrapeLoopGo_append site s.base_url (pageLimit + 1 - 1) s.tenders 1).1,
    List.drop_left] at h
  rcases scrapeLoopGo_mem site s.base_url _ _ _ r h with h | ⟨t, u, rfl⟩
  · exact absurd h (List.not_mem_nil r)
  · exact mkRecord_full t u _ (scrape_details_allSet site u)

/-- Witness for `tender_record_full_field_set`: the record produced by the
concrete site carries the full field set. -/
theorem tender_record_full_field_set_witness :
    recHasFullFieldSet
      (((scrape_tenders (TenderScraper.new default_base_url) exSite).1.1).headD {}) :=
  tender_record_full_field_set (TenderScraper.new default_base_url) exSite _ (by decide)

theorem dateLoop_cons (dn t : Text) (m : Text → Option Text) (ms : List (Text → Option Text)) :
    dateLoop dn t (m :: ms) =
      match dateAttempt dn m t with
      | some v => some v
      | none => dateLoop dn t ms := rfl

theorem stopGuard_find (dn : Text) (ws : List Text) (d : Text) :
    stopGuard dn ws d =
      match ws.find? (fun w => containsSubstr w d && w != dn) with
      | some w => strip (splitFirst w d)
      | none => d := by
  induction ws with
  | nil => rfl
  | cons w tl ih =>
    by_cases h : containsSubstr w d ∧ w ≠ dn
    · have hb : (containsSubstr w d && (w != dn)) = true := by
        rw [Bool.and_eq_true, bne_iff_ne]
        exact ⟨h.1, h.2⟩
      have hf : List.find? (fun w => containsSubstr w d && w != dn) (w :: tl) = some w := by
        simp only [List.find?]
        rw [hb]
      unfold stopGuard
      rw [if_pos h, hf]
    · have hb : (containsSubstr w d && (w != dn)) = false := by
        cases hcb : (containsSubstr w d && (w != dn)) with
        | false => rfl
        | true =>
          rw [Bool.and_eq_true, bne_iff_ne] at hcb
          exact absurd hcb h
      have hf : List.find? (fun w => containsSubstr w d && w != dn) (w :: tl) =
          List.find? (fun w => containsSubstr w d && w != dn) tl := by
        simp only [List.find?]
        rw [hb]
      unfold stopGuard
      rw [if_neg h, hf]
      exact ih

/-- C5: for every text blob and date field name, `extract_date` tries its
four patterns in order from most to least specific, the first accepted
candidate winning; an accepted candidate is the normalized match truncated
at the first stop-word-list label (in list order) that occurs in it and is
not the field being extracted; a candidate of length at most one is
rejected and the extractor falls through; and only when all four patterns
fail is the final lenient single-line match attempted, the empty string
being returned when it too fails. -/
theorem extract_date_pattern_chain (t dn : Text) :
    (∀ (i : Fin 4) (v : Text),
        (∀ j : Fin 4, j < i → dateAttempt dn ((datePatterns dn).get j) t = none) →
        dateAttempt dn ((datePatterns dn).get i) t = some v →
        extract_date t dn = v) ∧
      (∀ d, stopGuard dn date_stop_words d =
          match date_stop_words.find? (fun w => containsSubstr w d && w != dn) with
          | some w => strip (splitFirst w d)
          | none => d) ∧
      (∀ (m : Text → Option Text) (g : Text), reSearch m t = some g →
        (stopGuard dn date_stop_words (joinWords (splitWs (strip g)))).length ≤ 1 →
        dateAttempt dn m t = none) ∧
      ((∀ i : Fin 4, dateAttempt dn ((datePatterns dn).get i) t = none) →
        extract_date t dn =
          match reSearch (mDateSimple dn) t with
          | some g => strip g
          | none => []) := by
  refine ⟨?_, ?_, ?_, ?_⟩
  · intro i v hj hi
    fin_cases i
    · unfold extract_date
      simp only [datePatterns, List.get] at hi
      rw [show datePatterns dn = [mDate1 dn, mDate2 dn, mDate3 dn, mDate4 dn] from rfl,
        dateLoop_cons, hi]
    · have a0 : dateAttempt dn (mDate1 dn) t = none := hj ⟨0, by omega⟩ (by decide)
      unfold extract_date
      simp only [datePatterns, List.get] at hi
      rw [show datePatterns dn = [mDate1 dn, mDate2 dn, mDate3 dn, mDate4 dn] from rfl,
        dateLoop_cons, a0, dateLoop_cons, hi]
    · have a0 : dateAttempt dn (mDate1 dn) t = none := hj ⟨0, by omega⟩ (by decide)
      have a1 : dateAttempt dn (mDate2 dn) t = none := hj ⟨1, by omega⟩ (by decide)
      unfold extract_date
      simp only [datePatterns, List.get] at hi
      rw [show datePatterns dn = [mDate1 dn, mDate2 dn, mDate3 dn, mDate4 dn] from rfl,
        dateLoop_cons, a0, dateLoop_cons, a1, dateLoop_cons, hi]
    · have a0 : dateAttempt dn (mDate1 dn) t = none := hj ⟨0, by omega⟩ (by decide)
      have a1 : dateAttempt dn (mDate2 dn) t = none := hj ⟨1, by omega⟩ (by decide)
      have a2 : dateAttempt dn (mDate3 dn) t = none := hj ⟨2, by omega⟩ (by decide)
      unfold extract_date
      simp only [datePatterns, List.get] at hi
      rw [show datePatterns dn = [mDate1 dn, mDate2 dn, mDate3 dn, mDate4 dn] from rfl,
        dateLoop_cons, a0, dateLoop_cons, a1, dateLoop_cons, a2, dateLoop_cons, hi]
  · intro d
    exact stopGuard_find dn date_stop_words d
  · intro m g hsearch hlen
    unfold dateAttempt
    rw [hsearch]
    dsimp only
    rw [if_neg (by omega)]
  · intro hall
    have a0 : dateAttempt dn (mDate1 dn) t = none := hall ⟨0, by omega⟩
    have a1 : dateAttempt dn (mDate2 dn) t = none := hall ⟨1, by omega⟩
    have a2 : dateAttempt dn (mDate3 dn) t = none := hall ⟨2, by omega⟩
    have a3 : dateAttempt dn (mDate4 dn) t = none := hall ⟨3, by omega⟩
    unfold extract_date
    rw [show datePatterns dn = [mDate1 dn, mDate2 dn, mDate3 dn, mDate4 dn] from rfl,
      dateLoop_cons, a0, dateLoop_cons, a1, dateLoop_cons, a2, dateLoop_cons, a3]
    rfl

/-- Witness for `extract_date_pattern_chain`: on a concrete blob the first
pattern fails, the second is accepted, and the chain returns its value. -/
theorem extract_date_pattern_chain_witness :
    extract_date "Opening Date: 5 May 2024".toList "Opening Date".toList =
      "5 May 2024".toList := by
  have h := (extract_date_pattern_chain "Opening Date: 5 May 2024".toList
    "Opening Date".toList).1
  refine h ⟨1, by omega⟩ "5 May 2024".toList ?_ (by decide)
  intro j hj
  fin_cases j
  · decide
  · exact absurd hj (by decide)
  · exact absurd hj (by decide)
  · exact absurd hj (by decide)

theorem reSearchB_const (m : Text → Option Text) :
    ∀ (prev : Option Char) (l : Text),
      reSearchB (fun _ => m) prev l = reSearch m l := by
  intro prev l
  induction l generalizing prev with
  | nil => rfl
  | cons c tl ih =>
    show (match m (c :: tl) with
      | some r => some r
      | none => reSearchB (fun _ => m) (some c) tl) =
        (match m (c :: tl) with
          | some r => some r
          | none => reSearch m tl)
    cases m (c :: tl) with
    | none => exact ih (some c)
    | some r => rfl

theorem reSearch_cons (m : Text → Option Text) (c : Char) (tl : Text) :
    reSearch m (c :: tl) =
      match m (c :: tl) with
      | some r => some r
      | none => reSearch m tl := rfl

theorem reSearch_skip (m : Text → Option Text) :
    ∀ (a r : Text), (∀ i, i < a.length → m ((a ++ r).drop i) = none) →
      reSearch m (a ++ r) = reSearch m r := by
  intro a
  induction a with
  | nil => intro r _; rfl
  | cons c a' ih =>
    intro r h
    have h0 : m (c :: (a' ++ r)) = none := by
      have := h 0 (by simp)
      simpa using this
    have hc : reSearch m ((c :: a') ++ r) =
        match m (c :: (a' ++ r)) with
        | some v => some v
        | none => reSearch m (a' ++ r) := reSearch_cons m c (a' ++ r)
    rw [hc, h0]
    exact ih r (fun i hi => by
      have := h (i + 1) (by simp; omega)
      simpa using this)

theorem mBid1_none (l : Text) (h : ciIsPre "RFQ NUMBER".toList l = false) :
    mBid1 l = none := by
  unfold ciIsPre at h
  unfold mBid1
  cases hl : litCI "RFQ NUMBER".toList l with
  | none => rfl
  | some r => rw [hl] at h; simp at h

theorem litCI_append (p : Text) : ∀ (q rest : Text), litCI p q = some [] →
    litCI p (q ++ rest) = some rest := by
  induction p with
  | nil =>
    intro q rest h
    cases q with
    | nil => simp [litCI]
    | cons c cs =>
      exact absurd (Option.some.inj h) (by simp)
  | cons pc ps ih =>
    intro q rest h
    cases q with
    | nil => exact absurd h (by simp [litCI])
    | cons c cs =>
      rw [List.cons_append]
      simp only [litCI] at h ⊢
      by_cases hc : ciEq pc c
      · rw [if_pos hc] at h ⊢
        exact ih cs rest h
      · rw [if_neg hc] at h
        exact absurd h (by simp)

theorem takeWhile_digit_nil (y : Text) (hy : headNotDigit y = true) :
    y.takeWhile Char.isDigit = [] := by
  cases y with
  | nil => rfl
  | cons c tl =>
    unfold headNotDigit at hy
    rw [Bool.not_eq_eq_eq_not, Bool.not_true] at hy
    simp [List.takeWhile, hy]

theorem digitRun_eq (x y : Text) (hx : x ≠ []) (hall : x.all Char.isDigit = true)
    (hy : headNotDigit y = true) :
    digitRun (x ++ y) = some (x, y) := by
  have htw : (x ++ y).takeWhile Char.isDigit = x := by
    rw [List.takeWhile_append_of_pos (fun a ha => (List.all_eq_true.mp hall) a ha),
      takeWhile_digit_nil y hy, List.append_nil]
  unfold digitRun
  dsimp only
  rw [htw, if_neg hx, List.drop_left]

theorem mBid1_eq (l r1 : Text) (h : litCI "RFQ NUMBER".toList l = some r1) :
    mBid1 l =
      (digitRun (dropWs r1)).bind (fun p =>
        (slashDigit p.2).bind (fun q => some (p.1 ++ q.1))) := by
  unfold mBid1
  rw [h]
  rfl

theorem mBid1_at_lit (b : Text) (hy : headNotDigit b = true) :
    mBid1 ("RFQ NUMBER 12/2024".toList ++ b) = some "12/2024".toList := by
  have h1 : litCI "RFQ NUMBER".toList ("RFQ NUMBER 12/2024".toList ++ b) =
      some (" 12/2024".toList ++ b) :=
    litCI_append "RFQ NUMBER".toList "RFQ NUMBER".toList (" 12/2024".toList ++ b) (by decide)
  rw [mBid1_eq _ _ h1]
  have h2 : digitRun (dropWs (" 12/2024".toList ++ b)) =
      some ("12".toList, "/2024".toList ++ b) := by
    have hws : dropWs (" 12/2024".toList ++ b) = "12".toList ++ ("/2024".toList ++ b) := rfl
    rw [hws]
    exact digitRun_eq "12".toList ("/2024".toList ++ b) (by decide) (by decide) rfl
  rw [h2]
  have h3 : slashDigit ("/2024".toList ++ b) =
      (digitRun ("2024".toList ++ b)).map (fun p => ('/' :: p.1, p.2)) := rfl
  have h4 : digitRun ("2024".toList ++ b) = some ("2024".toList, b) :=
    digitRun_eq "2024".toList b (by decide) (by decide) hy
  show (slashDigit ("/2024".toList ++ b)).bind
      (fun q => some ("12".toList ++ q.1)) = some "12/2024".toList
  rw [h3, h4]
  rfl

theorem bidLoop_cons (t : Text) (m : Option Char → Text → Option Text)
    (ms : List (Option Char → Text → Option Text)) :
    bidLoop t (m :: ms) =
      match reSearchB m none t with
      | some g => some g
      | none => bidLoop t ms := rfl

/-- C8: `extract_bid_number_only` evaluates its seven patterns in a fixed
order from most specific to least specific and returns the first matching
pattern's capture, never trying later patterns once one matches; in
particular, for every text of the form `a ++ "RFQ NUMBER 12/2024" ++ b`
where the bare token `99/2024` occurs (unrelated, earlier) in `a`, no
case-insensitive occurrence of `RFQ NUMBER` starts before the shown one,
and `b` does not start with a digit, the RFQ-specific pattern wins and
`12/2024` is returned. -/
theorem bid_number_pattern_precedence :
    (∀ (i : Fin 7) (t g : Text),
        (∀ j : Fin 7, j < i → reSearchB (bidMatchers.get j) none t = none) →
        reSearchB (bidMatchers.get i) none t = some g →
        extract_bid_number_only t = g) ∧
      (∀ a b : Text,
        (∀ i, i < a.length →
          ciIsPre "RFQ NUMBER".toList
            ((a ++ "RFQ NUMBER 12/2024".toList ++ b).drop i) = false) →
        headNotDigit b = true →
        containsSubstr "99/2024".toList a = true →
        extract_bid_number_only (a ++ "RFQ NUMBER 12/2024".toList ++ b) =
          "12/2024".toList) := by
  have hfirst : ∀ (t g : Text), reSearch mBid1 t = some g →
      extract_bid_number_only t = g := by
    intro t g h
    unfold extract_bid_number_only bidMatchers
    rw [bidLoop_cons, reSearchB_const, h]
    rfl
  constructor
  · intro i t g hj hi
    fin_cases i
    · simp only [bidMatchers, List.get] at hi
      rw [reSearchB_const] at hi
      exact hfirst t g hi
    · have a0 : reSearchB (fun _ => mBid1) none t = none := hj ⟨0, by omega⟩ (by decide)
      simp only [bidMatchers, List.get] at hi a0
      unfold extract_bid_number_only bidMatchers
      rw [bidLoop_cons, a0, bidLoop_cons, hi]
      rfl
    · have a0 : reSearchB (fun _ => mBid1) none t = none := hj ⟨0, by omega⟩ (by decide)
      have a1 : reSearchB (fun _ => mBid2) none t = none := hj ⟨1, by omega⟩ (by decide)
      simp only [bidMatchers, List.get] at hi a0 a1
      unfold extract_bid_number_only bidMatchers
      rw [bidLoop_cons, a0, bidLoop_cons, a1, bidLoop_cons, hi]
      rfl
    · have a0 : reSearchB (fun _ => mBid1) none t = none := hj ⟨0, by omega⟩ (by decide)
      have a1 : reSearchB (fun _ => mBid2) none t = none := hj ⟨1, by omega⟩ (by decide)
      have a2 : reSearchB (fun _ => mBid3) none t = none := hj ⟨2, by omega⟩ (by decide)
      simp only [bidMatchers, List.get] at hi a0 a1 a2
      unfold extract_bid_number_only bidMatchers
      rw [bidLoop_cons, a0, bidLoop_cons, a1, bidLoop_cons, a2, bidLoop_cons, hi]
      rfl
    · have a0 : reSearchB (fun _ => mBid1) none t = none := hj ⟨0, by omega⟩ (by decide)
      have a1 : reSearchB (fun _ => mBid2) none t = none := hj ⟨1, by omega⟩ (by decide)
      have a2 : reSearchB (fun _ => mBid3) none t = none := hj ⟨2, by omega⟩ (by decide)
      have a3 : reSearchB mBid4 none t = none := hj ⟨3, by omega⟩ (by decide)
      simp only [bidMatchers, List.get] at hi a0 a1 a2 a3
      unfold extract_bid_number_only bidMatchers
      rw [bidLoop_cons, a0, bidLoop_cons, a1, bidLoop_cons, a2, bidLoop_cons, a3,
        bidLoop_cons, hi]
      rfl
    · have a0 : reSearchB (fun _ => mBid1) none t = none := hj ⟨0, by omega⟩ (by decide)
      have a1 : reSearchB (fun _ => mBid2) none t = none := hj ⟨1, by omega⟩ (by decide)
      have a2 : reSearchB (fun _ => mBid3) none t = none := hj ⟨2, by omega⟩ (by decide)
      have a3 : reSearchB mBid4 none t = none := hj ⟨3, by omega⟩ (by decide)
      have a4 : reSearchB mBid5 none t = none := hj ⟨4, by omega⟩ (by decide)
      simp only [bidMatchers, List.get] at hi a0 a1 a2 a3 a4
      unfold extract_bid_number_only bidMatchers
      rw [bidLoop_cons, a0, bidLoop_cons, a1, bidLoop_cons, a2, bidLoop_cons, a3,
        bidLoop_cons, a4, bidLoop_cons, hi]
      rfl
    · have a0 : reSearchB (fun _ => mBid1) none t = none := hj ⟨0, by omega⟩ (by decide)
      have a1 : reSearchB (fun _ => mBid2) none t = none := hj ⟨1, by omega⟩ (by decide)
      have a2 : reSearchB (fun _ => mBid3) none t = none := hj ⟨2, by omega⟩ (by decide)
      have a3 : reSearchB mBid4 none t = none := hj ⟨3, by omega⟩ (by decide)
      have a4 : reSearchB mBid5 none t = none := hj ⟨4, by omega⟩ (by decide)
      have a5 : reSearchB mBid6 none t = none := hj ⟨5, by omega⟩ (by decide)
      simp only [bidMatchers, List.get] at hi a0 a1 a2 a3 a4 a5
      unfold extract_bid_number_only bidMatchers
      rw [bidLoop_cons, a0, bidLoop_cons, a1, bidLoop_cons, a2, bidLoop_cons, a3,
        bidLoop_cons, a4, bidLoop_cons, a5, bidLoop_cons, hi]
      rfl
  · intro a b hskip hb h99
    apply hfirst
    have hassoc : a ++ "RFQ NUMBER 12/2024".toList ++ b =
        a ++ ("RFQ NUMBER 12/2024".toList ++ b) := List.append_assoc a _ b
    have hsk : reSearch mBid1 (a ++ ("RFQ NUMBER 12/2024".toList ++ b)) =
        reSearch mBid1 ("RFQ NUMBER 12/2024".toList ++ b) := by
      apply reSearch_skip
      intro i hi
      apply mBid1_none
      have := hskip i hi
      rwa [hassoc] at this
    rw [hassoc, hsk]
    have hone : reSearch mBid1 ("RFQ NUMBER 12/2024".toList ++ b) =
        match mBid1 ("RFQ NUMBER 12/2024".toList ++ b) with
        | some v => some v
        | none => reSearch mBid1 ("FQ NUMBER 12/2024".toList ++ b) :=
      reSearch_cons mBid1 'R' ("FQ NUMBER 12/2024".toList ++ b)
    rw [hone, mBid1_at_lit b hb]

/-- Witness for `bid_number_pattern_precedence`: the second conjunct at a
concrete earlier bare token and empty tail. -/
theorem bid_number_pattern_precedence_witness :
    extract_bid_number_only
        ("price 99/2024 note ".toList ++ "RFQ NUMBER 12/2024".toList ++ []) =
      "12/2024".toList :=
  bid_number_pattern_precedence.2 "price 99/2024 note ".toList [] (by decide)
    (by decide) (by decide)

end TenderScraperModel
